import Mathlib

/-!
A verification development for the bi-directional HubSpot ↔ Google Sheets
sync engine (`src/services/sync/sheets-to-hubspot.ts`,
`src/services/sync/hubspot-to-sheets.ts`).

The TypeScript code is shallowly embedded: JavaScript strings are `List Char`,
JavaScript numbers are rationals (every IEEE double that the program can
produce has an exact finite decimal expansion, hence an exact rational value)
plus an explicit `NaN` constructor, and each method of the sync services
becomes a pure Lean function.  External collaborators (CRM client, sheet
client, persistence layer) are supplied as environments of `Except`-valued
oracles, so a run of an orchestrator is a pure function of its environment
and configuration.
-/

set_option maxHeartbeats 1000000

/-- Characters of a Lean string: JavaScript strings are modelled as `List Char`. -/
def chars (s : String) : List Char := s.data

/-- Whitespace test used by the models of `String.prototype.trim` and of
leading-whitespace skipping in `parseInt` / `parseFloat` (ASCII subset of the
ECMAScript WhiteSpace / LineTerminator productions). -/
def isWsChar (c : Char) : Bool :=
  c = ' ' ∨ c = '\t' ∨ c = '\n' ∨ c = '\r' ∨ c = '\x0b' ∨ c = '\x0c'

/-- Decimal digit test, the `[0-9]` character class. -/
def isDigitC (c : Char) : Bool := '0' ≤ c ∧ c ≤ '9'

/-- ASCII word character, the `\w` character class. -/
def isWordC (c : Char) : Bool :=
  ('a' ≤ c ∧ c ≤ 'z') ∨ ('A' ≤ c ∧ c ≤ 'Z') ∨ isDigitC c ∨ c = '_'

/-- Model of `String.prototype.trim`: strip leading and trailing whitespace. -/
def jsTrim (s : List Char) : List Char :=
  ((s.dropWhile isWsChar).reverse.dropWhile isWsChar).reverse

/-- ASCII lower-casing of one character, the effect of
`String.prototype.toLowerCase` on the ASCII range. -/
def lowerC (c : Char) : Char :=
  if 'A' ≤ c ∧ c ≤ 'Z' then Char.ofNat (c.toNat + 32) else c

/-- ASCII upper-casing of one character, the effect of
`String.prototype.toUpperCase` on the ASCII range. -/
def upperC (c : Char) : Char :=
  if 'a' ≤ c ∧ c ≤ 'z' then Char.ofNat (c.toNat - 32) else c

/-- Model of `String.prototype.toLowerCase` (ASCII range). -/
def jsToLower (s : List Char) : List Char := s.map lowerC

/-- Model of `String.prototype.toUpperCase` (ASCII range). -/
def jsToUpper (s : List Char) : List Char := s.map upperC

/-- Model of `.replace(/\D/g, '')`: keep only decimal digits. -/
def stripNonDigits (s : List Char) : List Char := s.filter isDigitC

/-- Model of `.replace(/[^0-9.-]/g, '')`: keep digits, `.` and `-`. -/
def stripNonNumeric (s : List Char) : List Char :=
  s.filter (fun c => isDigitC c ∨ c = '.' ∨ c = '-')

/-- Fuel-indexed digit printer (structural recursion so that concrete values
reduce definitionally). -/
def natToCharsAux : Nat → Nat → List Char
  | 0, _ => []
  | f + 1, n =>
      if n < 10 then [Nat.digitChar n]
      else natToCharsAux f (n / 10) ++ [Nat.digitChar (n % 10)]

/-- Decimal digits of `n`, most significant first (`String(n)` for a natural). -/
def natToChars (n : Nat) : List Char := natToCharsAux (n + 1) n

/-- Decimal rendering of an integer (`String(i)`). -/
def intToChars (i : Int) : List Char :=
  if i < 0 then '-' :: natToChars i.natAbs else natToChars i.natAbs

/-- Numeric value of a decimal digit character. -/
def digitVal (c : Char) : Nat := c.toNat - 48

/-- Value of a list of decimal digit characters, most significant first. -/
def digitsVal (ds : List Char) : Nat :=
  Nat.ofDigits 10 (ds.reverse.map digitVal)

/-- Left-pad with `'0'` up to width `w` (model of `padStart(w, '0')`). -/
def padZeros (w : Nat) (ds : List Char) : List Char :=
  List.replicate (w - ds.length) '0' ++ ds

theorem digitVal_digitChar {d : Nat} (h : d < 10) : digitVal (Nat.digitChar d) = d := by
  interval_cases d <;> decide

theorem isDigitC_digitChar {d : Nat} (h : d < 10) : isDigitC (Nat.digitChar d) = true := by
  interval_cases d <;> decide

theorem map_digitVal_digitChar (l : List Nat) (hl : ∀ d ∈ l, d < 10) :
    l.map (digitVal ∘ Nat.digitChar) = l := by
  induction l with
  | nil => rfl
  | cons a t ih =>
      simp only [List.map_cons, Function.comp_apply,
        digitVal_digitChar (hl a (by simp)), List.cons.injEq, true_and]
      exact ih (fun d hd => hl d (by simp [hd]))

theorem digitsVal_snoc (a : List Char) (c : Char) :
    digitsVal (a ++ [c]) = 10 * digitsVal a + digitVal c := by
  unfold digitsVal
  rw [List.reverse_append]
  simp only [List.map_append, List.map_cons, List.map_nil, List.reverse_cons,
    List.reverse_nil, List.nil_append, List.map_reverse]
  simp [Nat.ofDigits]
  ring

theorem natToCharsAux_spec (f : Nat) : ∀ n, n < f →
    digitsVal (natToCharsAux f n) = n ∧
    (∀ c ∈ natToCharsAux f n, isDigitC c = true) ∧ natToCharsAux f n ≠ [] := by
  induction f with
  | zero => intro n hn; omega
  | succ f ih =>
      intro n hn
      unfold natToCharsAux
      by_cases h10 : n < 10
      · simp only [h10, if_true]
        refine ⟨?_, ?_, by simp⟩
        · unfold digitsVal
          simp [Nat.ofDigits, digitVal_digitChar h10]
        · intro c hc
          simp only [List.mem_singleton] at hc
          subst hc
          exact isDigitC_digitChar h10
      · simp only [h10, if_false]
        have hrec := ih (n / 10) (by omega)
        refine ⟨?_, ?_, by simp⟩
        · rw [digitsVal_snoc, hrec.1, digitVal_digitChar (Nat.mod_lt n (by norm_num))]
          omega
        · intro c hc
          rcases List.mem_append.mp hc with h | h
          · exact hrec.2.1 c h
          · simp only [List.mem_singleton] at h
            subst h
            exact isDigitC_digitChar (Nat.mod_lt n (by norm_num))

theorem digitsVal_natToChars (n : Nat) : digitsVal (natToChars n) = n :=
  (natToCharsAux_spec (n + 1) n (by omega)).1

theorem natToChars_all_digits (n : Nat) : ∀ c ∈ natToChars n, isDigitC c = true :=
  (natToCharsAux_spec (n + 1) n (by omega)).2.1

theorem natToChars_ne_nil (n : Nat) : natToChars n ≠ [] :=
  (natToCharsAux_spec (n + 1) n (by omega)).2.2

theorem digitsVal_padZeros (w : Nat) (ds : List Char) :
    digitsVal (padZeros w ds) = digitsVal ds := by
  unfold padZeros digitsVal
  induction w - ds.length with
  | zero => simp
  | succ k ih =>
      simp only [List.replicate_succ, List.cons_append, List.reverse_cons,
        List.reverse_append, List.reverse_replicate] at *
      simp only [List.map_append, Nat.ofDigits_append] at *
      simp_all [digitVal]

/-- Prefix test between character lists (no library name is used so that the
development is self-contained). -/
def isPre : List Char → List Char → Bool
  | [], _ => true
  | _ :: _, [] => false
  | a :: as, b :: bs => if a = b then isPre as bs else false

theorem isPre_append (a b : List Char) : isPre a (a ++ b) = true := by
  induction a with
  | nil => rfl
  | cons c t ih => simp [isPre, ih]

theorem isPre_head_ne (a : Char) (as s : List Char) (c : Char)
    (h : c ≠ a) : isPre (a :: as) (c :: s) = false := by
  simp only [isPre]
  rw [if_neg (fun hh => h hh.symm)]
/-- Fuel-indexed worker of `splitSep` (structural recursion on the fuel so
that concrete splits reduce definitionally). -/
def splitSepF (sep : List Char) : Nat → List Char → List (List Char)
  | 0, s => [s]
  | f + 1, s =>
      match s with
      | [] => [[]]
      | c :: rest =>
          if 0 < sep.length ∧ isPre sep (c :: rest) then
            [] :: splitSepF sep f (List.drop sep.length (c :: rest))
          else
            match splitSepF sep f rest with
            | h :: t => (c :: h) :: t
            | [] => [[c]]

/-- Model of `String.prototype.split` with a non-empty separator: leftmost-first
scanning, as specified for ECMAScript `split`. -/
def splitSep (sep : List Char) (s : List Char) : List (List Char) :=
  splitSepF sep (s.length + 1) s

theorem splitSepF_succ_cons (sep : List Char) (f : Nat) (c : Char) (rest : List Char) :
    splitSepF sep (f + 1) (c :: rest) =
      if 0 < sep.length ∧ isPre sep (c :: rest) then
        [] :: splitSepF sep f (List.drop sep.length (c :: rest))
      else
        match splitSepF sep f rest with
        | h :: t => (c :: h) :: t
        | [] => [[c]] := rfl

/-- Model of `String.prototype.split(sep)`: an empty separator splits into
single characters, otherwise `splitSep`. -/
def jsSplit (sep : List Char) (s : List Char) : List (List Char) :=
  if sep = [] then s.map (fun c => [c]) else splitSep sep s

/-- Model of `Array.prototype.join` restricted to string elements. -/
def joinSep (sep : List Char) : List (List Char) → List Char
  | [] => []
  | [x] => x
  | x :: y :: t => x ++ sep ++ joinSep sep (y :: t)

theorem splitSepF_fuel_irrel (sep : List Char) :
    ∀ f s, s.length < f → splitSepF sep f s = splitSep sep s := by
  have key : ∀ f1 f2 (s : List Char), s.length < f1 → s.length < f2 →
      splitSepF sep f1 s = splitSepF sep f2 s := by
    intro f1
    induction f1 with
    | zero => intro f2 s h1; omega
    | succ f ih =>
        intro f2 s h1 h2
        cases f2 with
        | zero => omega
        | succ g =>
          unfold splitSepF
          match s with
          | [] => rfl
          | c :: rest =>
              simp only [List.length_cons] at h1 h2
              by_cases hc : 0 < sep.length ∧ isPre sep (c :: rest) = true
              · simp only [hc, and_self, if_true]
                rw [ih g _ (by simp only [List.length_drop, List.length_cons]; omega)
                  (by simp only [List.length_drop, List.length_cons]; omega)]
              · simp only [hc, if_false]
                rw [ih g rest (by omega) (by omega)]
  intro f s h
  exact key f (s.length + 1) s h (by omega)

theorem splitSep_nil (sep : List Char) : splitSep sep [] = [[]] := rfl

theorem splitSep_no_sep (sep s : List Char) (a : Char) (as : List Char)
    (hsep : sep = a :: as) (hs : ∀ c ∈ s, c ≠ a) : splitSep sep s = [s] := by
  induction s with
  | nil => exact splitSep_nil sep
  | cons c rest ih =>
      have hpre : isPre sep (c :: rest) = false := by
        rw [hsep]; exact isPre_head_ne a as rest c (hs c (by simp))
      unfold splitSep
      rw [List.length_cons, splitSepF_succ_cons, if_neg (by simp [hpre]),
        splitSepF_fuel_irrel sep _ rest (by omega), ih (fun x hx => hs x (by simp [hx]))]

theorem splitSep_sep_front (a : Char) (as r : List Char) :
    splitSep (a :: as) (a :: (as ++ r)) = [] :: splitSep (a :: as) r := by
  have hpre : isPre (a :: as) (a :: (as ++ r)) = true := by
    have h := isPre_append (a :: as) r
    simpa using h
  have hdrop : List.drop (a :: as).length (a :: (as ++ r)) = r := by
    have h := List.drop_left (a :: as) r
    simpa using h
  show splitSepF (a :: as) ((a :: (as ++ r)).length + 1) (a :: (as ++ r)) = _
  rw [splitSepF_succ_cons, if_pos (And.intro (by simp) hpre), hdrop,
    splitSepF_fuel_irrel _ _ _ (by simp only [List.length_cons, List.length_append]; omega)]

theorem splitSep_cons_sep (sep x r : List Char) (a : Char) (as : List Char)
    (hsep : sep = a :: as) (hx : ∀ c ∈ x, c ≠ a) :
    splitSep sep (x ++ sep ++ r) = x :: splitSep sep r := by
  subst hsep
  induction x with
  | nil => simpa using splitSep_sep_front a as r
  | cons b t ih =>
      have hb : b ≠ a := hx b (by simp)
      have hpre : isPre (a :: as) (b :: (t ++ (a :: as) ++ r)) = false :=
        isPre_head_ne a as _ b hb
      have ht := ih (fun c hc => hx c (by simp [hc]))
      show splitSep (a :: as) (b :: (t ++ (a :: as) ++ r)) = (b :: t) :: splitSep (a :: as) r
      unfold splitSep
      rw [List.length_cons, splitSepF_succ_cons]
      simp only [List.append_assoc] at ht ⊢
      rw [if_neg (by simp [isPre_head_ne a as _ b hb])]
      rw [splitSepF_fuel_irrel _ _ _ (by omega)]
      rw [ht]
      rfl

theorem splitSep_joinSep (sep : List Char) (xs : List (List Char)) (a : Char)
    (as : List Char) (hsep : sep = a :: as) (hne : xs ≠ [])
    (hxs : ∀ p ∈ xs, ∀ c ∈ p, c ≠ a) :
    splitSep sep (joinSep sep xs) = xs := by
  induction xs with
  | nil => exact absurd rfl hne
  | cons x t ih =>
      match t with
      | [] =>
          simp only [joinSep]
          exact splitSep_no_sep sep x a as hsep (hxs x (by simp))
      | y :: t2 =>
          have hx : ∀ c ∈ x, c ≠ a := hxs x (by simp)
          simp only [joinSep]
          rw [splitSep_cons_sep sep x _ a as hsep hx,
            ih (by simp) (fun p hp => hxs p (by simp [hp]))]


/-- Strip trailing `'0'` characters (used for shortest decimal renderings). -/
def trimRightZeros (s : List Char) : List Char :=
  (s.reverse.dropWhile (fun c => c = '0')).reverse

/-- Thousands grouping of a reversed digit list: after every three digits
(seen from the right) insert a comma. -/
def groupRev : List Char → List Char
  | a :: b :: c :: d :: rest => a :: b :: c :: ',' :: groupRev (d :: rest)
  | s => s

/-- Insert en-US thousands separators into a digit string. -/
def groupThousands (ds : List Char) : List Char := (groupRev ds.reverse).reverse

/-- Model of `Number.prototype.toFixed` for an exactly representable input:
round to `d` decimal digits and print with exactly `d` fraction digits. -/
def jsToFixed (q : ℚ) (d : Nat) : List Char :=
  let n : Int := ⌊q * 10 ^ d + 1 / 2⌋
  let body := natToChars (n.natAbs / 10 ^ d) ++
    (if d = 0 then [] else '.' :: padZeros d (natToChars (n.natAbs % 10 ^ d)))
  if n < 0 then '-' :: body else body

/-- Shortest exact decimal exponent of a rational, when one exists within 64
digits.  Every IEEE double has a finite decimal expansion, so for every number
the JavaScript program can hold this is `some`. -/
def decExp (q : ℚ) : Option Nat :=
  (List.range 65).find? (fun d => (q * 10 ^ d).den = 1)

/-- Model of JavaScript number-to-string conversion (`String(x)`) for the
decimal-representable rationals that model JS numbers; non-decimal rationals
(unreachable from the modelled program) fall back to a 20-digit fixed
rendering. -/
def ratToChars (q : ℚ) : List Char :=
  match decExp q with
  | some 0 => intToChars q.num
  | some (d + 1) =>
      let n := (q * 10 ^ (d + 1)).num
      (if q < 0 then ['-'] else []) ++ natToChars (n.natAbs / 10 ^ (d + 1)) ++
        '.' :: padZeros (d + 1) (natToChars (n.natAbs % 10 ^ (d + 1)))
  | none => jsToFixed q 20

/-- Model of `Number.prototype.toLocaleString` under the en-US default locale
options (grouping, at most three fraction digits). -/
def jsToLocaleString (q : ℚ) : List Char :=
  let m : Nat := (⌊|q| * 1000 + 1 / 2⌋).toNat
  let fr := m % 1000
  (if q < 0 then ['-'] else []) ++ groupThousands (natToChars (m / 1000)) ++
    (if fr = 0 then [] else '.' :: trimRightZeros (padZeros 3 (natToChars fr)))

/-- Currency symbol produced by `Intl.NumberFormat('en-US', {style:'currency'})`:
the dollar sign for USD; other codes are shown as the code and a space (an
approximation used by no theorem below, which all fix USD). -/
def currencySymbol (cur : List Char) : List Char :=
  if cur = chars "USD" then ['$'] else cur ++ [' ']

/-- Model of `Intl.NumberFormat('en-US', {style: 'currency'}).format`:
sign, symbol, grouped integer part, exactly two fraction digits. -/
def jsCurrencyFormat (q : ℚ) (cur : List Char) : List Char :=
  let m : Nat := (⌊|q| * 100 + 1 / 2⌋).toNat
  (if q < 0 then ['-'] else []) ++ currencySymbol cur ++
    groupThousands (natToChars (m / 100)) ++ '.' :: padZeros 2 (natToChars (m % 100))

/-- JavaScript values as the sync engine manipulates them: `null`, `undefined`,
booleans, finite numbers (exact rationals), `NaN`, strings, arrays. -/
inductive JsVal where
  | vnull
  | vundef
  | vbool (b : Bool)
  | vnum (q : ℚ)
  | vnan
  | vstr (s : List Char)
  | varr (elems : List JsVal)

open JsVal

/-- JavaScript truthiness. -/
def truthy : JsVal → Bool
  | vnull => false
  | vundef => false
  | vnan => false
  | vbool b => b
  | vnum q => q ≠ 0
  | vstr s => s ≠ []
  | varr _ => true

/-- Model of JavaScript strict equality `===` on the values above.  `NaN` is
unequal to everything including itself; arrays compare by reference, and the
distinct array literals reaching the modelled comparisons are never
reference-equal, so array comparison is `false`. -/
def jsStrictEq : JsVal → JsVal → Bool
  | vnull, vnull => true
  | vundef, vundef => true
  | vbool a, vbool b => a = b
  | vnum a, vnum b => a = b
  | vstr a, vstr b => a = b
  | _, _ => false

/-- Fuel-indexed worker of `jsToChars` (structural recursion on the fuel so
that concrete coercions reduce definitionally; the wrapper supplies enough
fuel for the value's depth). -/
def jsToCharsF : Nat → JsVal → List Char
  | _, vnull => chars "null"
  | _, vundef => chars "undefined"
  | _, vnan => chars "NaN"
  | _, vbool b => if b then chars "true" else chars "false"
  | _, vnum q => ratToChars q
  | _, vstr s => s
  | 0, varr _ => []
  | f + 1, varr xs =>
      joinSep [','] (xs.map (fun v =>
        match v with
        | vnull => []
        | vundef => []
        | w => jsToCharsF f w))

/-- Model of JavaScript string coercion `String(value)`.  Array elements that
are `null`/`undefined` render as empty, as `Array.prototype.toString`
specifies.  The fuel 64 bounds the rendered array nesting depth; no value the
modelled program builds comes near it. -/
def jsToChars (v : JsVal) : List Char := jsToCharsF 64 v

/-- Element renderings of `Array.prototype.join`: `null` and `undefined`
elements render as the empty string. -/
def arrElemStrs (xs : List JsVal) : List (List Char) :=
  xs.map (fun v =>
    match v with
    | vnull => []
    | vundef => []
    | w => jsToChars w)

/-- Optional leading sign of a numeric literal: the negativity flag and the
remainder. -/
def readSign (s : List Char) : Bool × List Char :=
  match s with
  | '-' :: r => (true, r)
  | '+' :: r => (false, r)
  | _ => (false, s)

/-- Model of `parseInt` (decimal, no radix argument as the source calls it):
skip whitespace, read an optional sign and leading digits; no digit gives
`NaN`. -/
def jsParseInt (s : List Char) : JsVal :=
  let s1 := s.dropWhile isWsChar
  let sgn := readSign s1
  let ds := sgn.2.takeWhile isDigitC
  if ds = [] then vnan
  else vnum ((if sgn.1 then (-1 : ℚ) else 1) * (digitsVal ds : ℚ))

/-- Model of `parseFloat` on a string: optional sign, integer digits, optional
fraction (the exponent form, which no modelled call site can produce, is not
modelled). -/
def jsParseFloat (s : List Char) : JsVal :=
  let s1 := s.dropWhile isWsChar
  let sgn := readSign s1
  let ip := sgn.2.takeWhile isDigitC
  let r1 := sgn.2.drop ip.length
  let fp := match r1 with
    | '.' :: r => r.takeWhile isDigitC
    | _ => []
  if ip = [] ∧ fp = [] then vnan
  else vnum ((if sgn.1 then (-1 : ℚ) else 1) *
    ((digitsVal ip : ℚ) + (digitsVal fp : ℚ) / 10 ^ fp.length))

/-- Model of `parseFloat(value)` on an arbitrary value: a finite number parses
to itself, everything else is coerced to a string first. -/
def jsParseFloatVal : JsVal → JsVal
  | vnum q => vnum q
  | vnan => vnan
  | v => jsParseFloat (jsToChars v)

/-- Model of the global `isNaN` applied to a number-typed result. -/
def isNaNv : JsVal → Bool
  | vnan => true
  | _ => false

/-- Milliseconds per day. -/
def msPerDay : Int := 86400000

/-- Gregorian leap-year test. -/
def isLeap (y : Int) : Bool := y % 4 = 0 ∧ (y % 100 ≠ 0 ∨ y % 400 = 0)

/-- Length of a month. -/
def daysInMonth (y m : Int) : Int :=
  if m = 1 then 31 else if m = 2 then (if isLeap y then 29 else 28)
  else if m = 3 then 31 else if m = 4 then 30 else if m = 5 then 31
  else if m = 6 then 30 else if m = 7 then 31 else if m = 8 then 31
  else if m = 9 then 30 else if m = 10 then 31 else if m = 11 then 30
  else 31

/-- A calendar date is valid. -/
def validCivil (y m d : Int) : Prop :=
  1 ≤ m ∧ m ≤ 12 ∧ 1 ≤ d ∧ d ≤ daysInMonth y m

instance (y m d : Int) : Decidable (validCivil y m d) := by
  unfold validCivil; infer_instance

/-- The ECMAScript `InLeapYear` flag as an integer. -/
def ilyInt (y : Int) : Int := if isLeap y then 1 else 0

/-- Model of ECMAScript `DayFromYear`. -/
def dayFromYear (y : Int) : Int :=
  365 * (y - 1970) + (y - 1969) / 4 - (y - 1901) / 100 + (y - 1601) / 400

/-- Model of ECMAScript `YearFromTime`: the year whose first day is the
largest not exceeding `day`, computed from a linear estimate and a bounded
correction. -/
def yearFromDay (day : Int) : Int :=
  let e := (400 * day) / 146097 + 1970
  if day < dayFromYear e then e - 1
  else if day < dayFromYear (e + 1) then e
  else e + 1

/-- Days in a year before 0-based month `mn`, `ily` the in-leap-year flag
(ECMAScript `DayWithinYear` table). -/
def cumDaysBeforeMonth (mn ily : Int) : Int :=
  if mn = 0 then 0 else if mn = 1 then 31 else if mn = 2 then 59 + ily
  else if mn = 3 then 90 + ily else if mn = 4 then 120 + ily
  else if mn = 5 then 151 + ily else if mn = 6 then 181 + ily
  else if mn = 7 then 212 + ily else if mn = 8 then 243 + ily
  else if mn = 9 then 273 + ily else if mn = 10 then 304 + ily
  else 334 + ily

/-- Model of ECMAScript `MakeDay(year, month, date)` (0-based month, with the
month-overflow normalisation). -/
def makeDay (y m d : Int) : Int :=
  let ym := y + m / 12
  let mn := m % 12
  dayFromYear ym + cumDaysBeforeMonth mn (ilyInt ym) + d - 1

/-- Civil decomposition of a day count: the triple
(`getFullYear`, `getMonth` + 1, `getDate`) of a date holding that day
(ECMAScript `YearFromTime`, `MonthFromTime`, `DateFromTime`; the model fixes
UTC as the host time zone, the standard server configuration). -/
def civilFromDay (day : Int) : Int × Int × Int :=
  let y := yearFromDay day
  let dwy := day - dayFromYear y
  let ily := ilyInt y
  if dwy < 31 then (y, 1, dwy + 1)
  else if dwy < 59 + ily then (y, 2, dwy - 30)
  else if dwy < 90 + ily then (y, 3, dwy - 58 - ily)
  else if dwy < 120 + ily then (y, 4, dwy - 89 - ily)
  else if dwy < 151 + ily then (y, 5, dwy - 119 - ily)
  else if dwy < 181 + ily then (y, 6, dwy - 150 - ily)
  else if dwy < 212 + ily then (y, 7, dwy - 180 - ily)
  else if dwy < 243 + ily then (y, 8, dwy - 211 - ily)
  else if dwy < 273 + ily then (y, 9, dwy - 242 - ily)
  else if dwy < 304 + ily then (y, 10, dwy - 272 - ily)
  else if dwy < 334 + ily then (y, 11, dwy - 303 - ily)
  else (y, 12, dwy - 333 - ily)

theorem dayFromYear_mono (a b : Int) (h : a ≤ b) : dayFromYear a ≤ dayFromYear b := by
  unfold dayFromYear
  have q1 : (a - 1969) / 4 ≤ (b - 1969) / 4 := by omega
  have q2 : (b - 1901) / 100 ≤ (a - 1901) / 100 + (b - a + 99) / 100 := by omega
  omega

theorem yearFromDay_correct (y day : Int) (h1 : dayFromYear y ≤ day)
    (h2 : day < dayFromYear (y + 1)) : yearFromDay day = y := by
  have hest : y - 1 ≤ 400 * day / 146097 + 1970 ∧ 400 * day / 146097 + 1970 ≤ y + 1 := by
    have e1 : 400 * ((y - 1969) / 4) = 100 * (y - 1969) - 100 * ((y - 1969) % 4) := by omega
    have e2 : 400 * ((y - 1901) / 100) = 4 * (y - 1901) - 4 * ((y - 1901) % 100) := by omega
    have e3 : 400 * ((y - 1601) / 400) = (y - 1601) - (y - 1601) % 400 := by omega
    unfold dayFromYear at h1 h2
    omega
  have m1 : dayFromYear (y - 1) ≤ dayFromYear y := dayFromYear_mono _ _ (by omega)
  have m3 : dayFromYear (y + 1) ≤ dayFromYear (y + 2) := dayFromYear_mono _ _ (by omega)
  unfold yearFromDay
  simp only []
  set ev := 400 * day / 146097 + 1970 with hev
  have h3 : ev = y - 1 ∨ ev = y ∨ ev = y + 1 := by omega
  have n1 : y - 1 + 1 = y := by ring
  have n2 : y + 1 + 1 = y + 2 := by ring
  rcases h3 with h3 | h3 | h3
  · rw [h3, n1]; split_ifs <;> omega
  · rw [h3]; split_ifs <;> omega
  · rw [h3, n2]; split_ifs <;> omega

theorem dayFromYear_succ (y : Int) :
    dayFromYear (y + 1) = dayFromYear y + 365 + ilyInt y := by
  unfold dayFromYear ilyInt isLeap
  split_ifs with h
  · simp only [Bool.and_eq_true, Bool.or_eq_true, decide_eq_true_eq, bne_iff_ne, ne_eq] at h
    omega
  · simp only [Bool.and_eq_true, Bool.or_eq_true, decide_eq_true_eq, bne_iff_ne, ne_eq,
      not_and, not_or, not_not] at h
    omega

theorem dwy_decomp (y m d il dwy : Int)
    (hcase : (m = 1 ∧ dwy = d - 1 ∧ 1 ≤ d ∧ d ≤ 31) ∨
      (m = 2 ∧ dwy = 31 + d - 1 ∧ 1 ≤ d ∧ d ≤ 28 + il) ∨
      (m = 3 ∧ dwy = 59 + il + d - 1 ∧ 1 ≤ d ∧ d ≤ 31) ∨
      (m = 4 ∧ dwy = 90 + il + d - 1 ∧ 1 ≤ d ∧ d ≤ 30) ∨
      (m = 5 ∧ dwy = 120 + il + d - 1 ∧ 1 ≤ d ∧ d ≤ 31) ∨
      (m = 6 ∧ dwy = 151 + il + d - 1 ∧ 1 ≤ d ∧ d ≤ 30) ∨
      (m = 7 ∧ dwy = 181 + il + d - 1 ∧ 1 ≤ d ∧ d ≤ 31) ∨
      (m = 8 ∧ dwy = 212 + il + d - 1 ∧ 1 ≤ d ∧ d ≤ 31) ∨
      (m = 9 ∧ dwy = 243 + il + d - 1 ∧ 1 ≤ d ∧ d ≤ 30) ∨
      (m = 10 ∧ dwy = 273 + il + d - 1 ∧ 1 ≤ d ∧ d ≤ 31) ∨
      (m = 11 ∧ dwy = 304 + il + d - 1 ∧ 1 ≤ d ∧ d ≤ 30) ∨
      (m = 12 ∧ dwy = 334 + il + d - 1 ∧ 1 ≤ d ∧ d ≤ 31))
    (hil0 : 0 ≤ il) (hil1 : il ≤ 1) :
    (if dwy < 31 then (y, (1 : Int), dwy + 1)
     else if dwy < 59 + il then (y, 2, dwy - 30)
     else if dwy < 90 + il then (y, 3, dwy - 58 - il)
     else if dwy < 120 + il then (y, 4, dwy - 89 - il)
     else if dwy < 151 + il then (y, 5, dwy - 119 - il)
     else if dwy < 181 + il then (y, 6, dwy - 150 - il)
     else if dwy < 212 + il then (y, 7, dwy - 180 - il)
     else if dwy < 243 + il then (y, 8, dwy - 211 - il)
     else if dwy < 273 + il then (y, 9, dwy - 242 - il)
     else if dwy < 304 + il then (y, 10, dwy - 272 - il)
     else if dwy < 334 + il then (y, 11, dwy - 303 - il)
     else (y, 12, dwy - 333 - il)) = (y, m, d) := by
  rcases hcase with hc | hc | hc | hc | hc | hc | hc | hc | hc | hc | hc | hc
  · obtain ⟨hm, hdwy, hd1, hd2⟩ := hc; subst hm; rw [if_pos (by omega)]; refine Prod.ext rfl (Prod.ext rfl ?_); show dwy + 1 = d; omega
  · obtain ⟨hm, hdwy, hd1, hd2⟩ := hc; subst hm; rw [if_neg (by omega)]; rw [if_pos (by omega)]; refine Prod.ext rfl (Prod.ext rfl ?_); show dwy - 30 = d; omega
  · obtain ⟨hm, hdwy, hd1, hd2⟩ := hc; subst hm; rw [if_neg (by omega)]; rw [if_neg (by omega)]; rw [if_pos (by omega)]; refine Prod.ext rfl (Prod.ext rfl ?_); show dwy - 58 - il = d; omega
  · obtain ⟨hm, hdwy, hd1, hd2⟩ := hc; subst hm; rw [if_neg (by omega)]; rw [if_neg (by omega)]; rw [if_neg (by omega)]; rw [if_pos (by omega)]; refine Prod.ext rfl (Prod.ext rfl ?_); show dwy - 89 - il = d; omega
  · obtain ⟨hm, hdwy, hd1, hd2⟩ := hc; subst hm; rw [if_neg (by omega)]; rw [if_neg (by omega)]; rw [if_neg (by omega)]; rw [if_neg (by omega)]; rw [if_pos (by omega)]; refine Prod.ext rfl (Prod.ext rfl ?_); show dwy - 119 - il = d; omega
  · obtain ⟨hm, hdwy, hd1, hd2⟩ := hc; subst hm; rw [if_neg (by omega)]; rw [if_neg (by omega)]; rw [if_neg (by omega)]; rw [if_neg (by omega)]; rw [if_neg (by omega)]; rw [if_pos (by omega)]; refine Prod.ext rfl (Prod.ext rfl ?_); show dwy - 150 - il = d; omega
  · obtain ⟨hm, hdwy, hd1, hd2⟩ := hc; subst hm; rw [if_neg (by omega)]; rw [if_neg (by omega)]; rw [if_neg (by omega)]; rw [if_neg (by omega)]; rw [if_neg (by omega)]; rw [if_neg (by omega)]; rw [if_pos (by omega)]; refine Prod.ext rfl (Prod.ext rfl ?_); show dwy - 180 - il = d; omega
  · obtain ⟨hm, hdwy, hd1, hd2⟩ := hc; subst hm; rw [if_neg (by omega)]; rw [if_neg (by omega)]; rw [if_neg (by omega)]; rw [if_neg (by omega)]; rw [if_neg (by omega)]; rw [if_neg (by omega)]; rw [if_neg (by omega)]; rw [if_pos (by omega)]; refine Prod.ext rfl (Prod.ext rfl ?_); show dwy - 211 - il = d; omega
  · obtain ⟨hm, hdwy, hd1, hd2⟩ := hc; subst hm; rw [if_neg (by omega)]; rw [if_neg (by omega)]; rw [if_neg (by omega)]; rw [if_neg (by omega)]; rw [if_neg (by omega)]; rw [if_neg (by omega)]; rw [if_neg (by omega)]; rw [if_neg (by omega)]; rw [if_pos (by omega)]; refine Prod.ext rfl (Prod.ext rfl ?_); show dwy - 242 - il = d; omega
  · obtain ⟨hm, hdwy, hd1, hd2⟩ := hc; subst hm; rw [if_neg (by omega)]; rw [if_neg (by omega)]; rw [if_neg (by omega)]; rw [if_neg (by omega)]; rw [if_neg (by omega)]; rw [if_neg (by omega)]; rw [if_neg (by omega)]; rw [if_neg (by omega)]; rw [if_neg (by omega)]; rw [if_pos (by omega)]; refine Prod.ext rfl (Prod.ext rfl ?_); show dwy - 272 - il = d; omega
  · obtain ⟨hm, hdwy, hd1, hd2⟩ := hc; subst hm; rw [if_neg (by omega)]; rw [if_neg (by omega)]; rw [if_neg (by omega)]; rw [if_neg (by omega)]; rw [if_neg (by omega)]; rw [if_neg (by omega)]; rw [if_neg (by omega)]; rw [if_neg (by omega)]; rw [if_neg (by omega)]; rw [if_neg (by omega)]; rw [if_pos (by omega)]; refine Prod.ext rfl (Prod.ext rfl ?_); show dwy - 303 - il = d; omega
  · obtain ⟨hm, hdwy, hd1, hd2⟩ := hc; subst hm; rw [if_neg (by omega)]; rw [if_neg (by omega)]; rw [if_neg (by omega)]; rw [if_neg (by omega)]; rw [if_neg (by omega)]; rw [if_neg (by omega)]; rw [if_neg (by omega)]; rw [if_neg (by omega)]; rw [if_neg (by omega)]; rw [if_neg (by omega)]; rw [if_neg (by omega)]; refine Prod.ext rfl (Prod.ext rfl ?_); show dwy - 333 - il = d; omega

theorem civilFromDay_eq (y dwy : Int) (h0 : 0 ≤ dwy) (hb : dwy ≤ 364 + ilyInt y) :
    civilFromDay (dayFromYear y + dwy) =
      (if dwy < 31 then (y, (1 : Int), dwy + 1)
       else if dwy < 59 + ilyInt y then (y, 2, dwy - 30)
       else if dwy < 90 + ilyInt y then (y, 3, dwy - 58 - ilyInt y)
       else if dwy < 120 + ilyInt y then (y, 4, dwy - 89 - ilyInt y)
       else if dwy < 151 + ilyInt y then (y, 5, dwy - 119 - ilyInt y)
       else if dwy < 181 + ilyInt y then (y, 6, dwy - 150 - ilyInt y)
       else if dwy < 212 + ilyInt y then (y, 7, dwy - 180 - ilyInt y)
       else if dwy < 243 + ilyInt y then (y, 8, dwy - 211 - ilyInt y)
       else if dwy < 273 + ilyInt y then (y, 9, dwy - 242 - ilyInt y)
       else if dwy < 304 + ilyInt y then (y, 10, dwy - 272 - ilyInt y)
       else if dwy < 334 + ilyInt y then (y, 11, dwy - 303 - ilyInt y)
       else (y, 12, dwy - 333 - ilyInt y)) := by
  have hy : yearFromDay (dayFromYear y + dwy) = y := by
    apply yearFromDay_correct
    · omega
    · rw [dayFromYear_succ]; omega
  unfold civilFromDay
  simp only []
  rw [hy]
  have harith : dayFromYear y + dwy - dayFromYear y = dwy := by ring
  rw [harith]

theorem ilyInt_bounds (y : Int) : 0 ≤ ilyInt y ∧ ilyInt y ≤ 1 := by
  unfold ilyInt; split_ifs <;> omega

theorem daysInMonth_feb (y : Int) : daysInMonth y 2 = 28 + ilyInt y := by
  unfold daysInMonth ilyInt; split_ifs <;> omega

theorem civilFromDay_makeDay (y m d : Int) (h : validCivil y m d) :
    civilFromDay (makeDay y (m - 1) d) = (y, m, d) := by
  obtain ⟨h1, h2, h3, h4⟩ := h
  have hdiv : (m - 1) / 12 = 0 := by omega
  have hmod : (m - 1) % 12 = m - 1 := by omega
  have hil := ilyInt_bounds y
  unfold makeDay
  rw [hdiv, hmod, add_zero]
  have hm12 : m = 1 ∨ m = 2 ∨ m = 3 ∨ m = 4 ∨ m = 5 ∨ m = 6 ∨ m = 7 ∨ m = 8 ∨
      m = 9 ∨ m = 10 ∨ m = 11 ∨ m = 12 := by omega
  have hcase : ∃ dwy, dayFromYear y + cumDaysBeforeMonth (m - 1) (ilyInt y) + d - 1 =
      dayFromYear y + dwy ∧ 0 ≤ dwy ∧ dwy ≤ 364 + ilyInt y ∧
      ((m = 1 ∧ dwy = d - 1 ∧ 1 ≤ d ∧ d ≤ 31) ∨
       (m = 2 ∧ dwy = 31 + d - 1 ∧ 1 ≤ d ∧ d ≤ 28 + ilyInt y) ∨
       (m = 3 ∧ dwy = 59 + ilyInt y + d - 1 ∧ 1 ≤ d ∧ d ≤ 31) ∨
       (m = 4 ∧ dwy = 90 + ilyInt y + d - 1 ∧ 1 ≤ d ∧ d ≤ 30) ∨
       (m = 5 ∧ dwy = 120 + ilyInt y + d - 1 ∧ 1 ≤ d ∧ d ≤ 31) ∨
       (m = 6 ∧ dwy = 151 + ilyInt y + d - 1 ∧ 1 ≤ d ∧ d ≤ 30) ∨
       (m = 7 ∧ dwy = 181 + ilyInt y + d - 1 ∧ 1 ≤ d ∧ d ≤ 31) ∨
       (m = 8 ∧ dwy = 212 + ilyInt y + d - 1 ∧ 1 ≤ d ∧ d ≤ 31) ∨
       (m = 9 ∧ dwy = 243 + ilyInt y + d - 1 ∧ 1 ≤ d ∧ d ≤ 30) ∨
       (m = 10 ∧ dwy = 273 + ilyInt y + d - 1 ∧ 1 ≤ d ∧ d ≤ 31) ∨
       (m = 11 ∧ dwy = 304 + ilyInt y + d - 1 ∧ 1 ≤ d ∧ d ≤ 30) ∨
       (m = 12 ∧ dwy = 334 + ilyInt y + d - 1 ∧ 1 ≤ d ∧ d ≤ 31)) := by
    refine ⟨cumDaysBeforeMonth (m - 1) (ilyInt y) + d - 1, by ring, ?_⟩
    rcases hm12 with hm | hm | hm | hm | hm | hm | hm | hm | hm | hm | hm | hm
    · subst hm; unfold daysInMonth at h4; norm_num at h4; simp only [cumDaysBeforeMonth]; norm_num; omega
    · subst hm; rw [daysInMonth_feb] at h4; simp only [cumDaysBeforeMonth]; norm_num; omega
    · subst hm; unfold daysInMonth at h4; norm_num at h4; simp only [cumDaysBeforeMonth]; norm_num; omega
    · subst hm; unfold daysInMonth at h4; norm_num at h4; simp only [cumDaysBeforeMonth]; norm_num; omega
    · subst hm; unfold daysInMonth at h4; norm_num at h4; simp only [cumDaysBeforeMonth]; norm_num; omega
    · subst hm; unfold daysInMonth at h4; norm_num at h4; simp only [cumDaysBeforeMonth]; norm_num; omega
    · subst hm; unfold daysInMonth at h4; norm_num at h4; simp only [cumDaysBeforeMonth]; norm_num; omega
    · subst hm; unfold daysInMonth at h4; norm_num at h4; simp only [cumDaysBeforeMonth]; norm_num; omega
    · subst hm; unfold daysInMonth at h4; norm_num at h4; simp only [cumDaysBeforeMonth]; norm_num; omega
    · subst hm; unfold daysInMonth at h4; norm_num at h4; simp only [cumDaysBeforeMonth]; norm_num; omega
    · subst hm; unfold daysInMonth at h4; norm_num at h4; simp only [cumDaysBeforeMonth]; norm_num; omega
    · subst hm; unfold daysInMonth at h4; norm_num at h4; simp only [cumDaysBeforeMonth]; norm_num; omega
  obtain ⟨dwy, heq, hge, hle, hcs⟩ := hcase
  rw [heq, civilFromDay_eq y dwy hge hle]
  exact dwy_decomp y m d (ilyInt y) dwy hcs hil.1 hil.2

/-- JSON whitespace (the four characters the JSON grammar allows). -/
def isJsonWs (c : Char) : Bool := c = ' ' ∨ c = '\t' ∨ c = '\n' ∨ c = '\r'

/-- Hexadecimal digit character for values below 16. -/
def hexChar (n : Nat) : Char := if n < 10 then Nat.digitChar n else Nat.digitChar n

/-- JSON escaping of one character, as `JSON.stringify` performs it. -/
def jsonEscapeChar (c : Char) : List Char :=
  if c = '"' then ['\\', '"']
  else if c = '\\' then ['\\', '\\']
  else if c = '\n' then ['\\', 'n']
  else if c = '\r' then ['\\', 'r']
  else if c = '\t' then ['\\', 't']
  else if c.toNat < 32 then
    ['\\', 'u', '0', '0', hexChar (c.toNat / 16), hexChar (c.toNat % 16)]
  else [c]

/-- JSON escaping of a string body. -/
def jsonEscape (s : List Char) : List Char := (s.map jsonEscapeChar).flatten

/-- Fuel-indexed worker of `jsonStringify` (structural recursion on the
fuel). -/
def jsonStringifyF : Nat → JsVal → Option (List Char)
  | _, vnull => some (chars "null")
  | _, vnan => some (chars "null")
  | _, vundef => none
  | _, vbool b => some (if b then chars "true" else chars "false")
  | _, vnum q => some (ratToChars q)
  | _, vstr s => some ('"' :: (jsonEscape s ++ ['"']))
  | 0, varr _ => none
  | f + 1, varr xs =>
      some ('[' :: (joinSep [',']
        (xs.map (fun v => (jsonStringifyF f v).getD (chars "null"))) ++ [']']))

/-- Model of `JSON.stringify` on the modelled value universe: `undefined` has
no JSON rendering (the call returns `undefined`); `NaN` serialises as `null`;
array holes serialise as `null`.  The fuel 64 bounds the serialised array
nesting depth; no value the modelled program builds comes near it. -/
def jsonStringify (v : JsVal) : Option (List Char) := jsonStringifyF 64 v

/-- String-body parsing of JSON (`"..."` after the opening quote), returning
the decoded body and the input after the closing quote.  The `\uXXXX`, `\b`,
`\f` escapes are outside the modelled subset. -/
def jsonParseStrBody : List Char → Option (List Char × List Char)
  | [] => none
  | '"' :: rest => some ([], rest)
  | '\\' :: c :: rest =>
      (if c = '"' then some ['"'] else if c = '\\' then some ['\\']
       else if c = '/' then some ['/'] else if c = 'n' then some ['\n']
       else if c = 'r' then some ['\r'] else if c = 't' then some ['\t']
       else none).bind (fun esc =>
        (jsonParseStrBody rest).map (fun pr => (esc ++ pr.1, pr.2)))
  | c :: rest =>
      if c.toNat < 32 then none
      else (jsonParseStrBody rest).map (fun pr => (c :: pr.1, pr.2))

/-- JSON number parsing (integer and fraction; the exponent form is outside
the modelled subset, no modelled serialisation emits it). -/
def jsonParseNum (s : List Char) : Option (ℚ × List Char) :=
  let sgn := readSign s
  let ip := sgn.2.takeWhile isDigitC
  if ip = [] then none else
  let r1 := sgn.2.drop ip.length
  match r1 with
  | '.' :: r2 =>
      let fp := r2.takeWhile isDigitC
      if fp = [] then none
      else some ((if sgn.1 then -1 else 1) *
        ((digitsVal ip : ℚ) + (digitsVal fp : ℚ) / 10 ^ fp.length), r2.drop fp.length)
  | _ => some ((if sgn.1 then (-1 : ℚ) else 1) * (digitsVal ip : ℚ), r1)

/-- Fuel-indexed recursive-descent JSON parser (model of `JSON.parse` on the
modelled subset: literals, numbers, strings, arrays).  The flag selects
between parsing one value (`false`) and parsing the element list of an array
(`true`, with the accumulator); the recursion is structural on the fuel. -/
def jsonParseF : Nat → Bool → List Char → List JsVal → Option (JsVal × List Char)
  | 0, _, _, _ => none
  | f + 1, false, s, _ =>
      let s1 := s.dropWhile isJsonWs
      match s1 with
      | '"' :: rest => (jsonParseStrBody rest).map (fun pr => (vstr pr.1, pr.2))
      | '[' :: rest =>
          let rest2 := rest.dropWhile isJsonWs
          match rest2 with
          | ']' :: rem => some (varr [], rem)
          | _ => jsonParseF f true rest2 []
      | 't' :: rest => if isPre (chars "rue") rest then some (vbool true, rest.drop 3) else none
      | 'f' :: rest => if isPre (chars "alse") rest then some (vbool false, rest.drop 4) else none
      | 'n' :: rest => if isPre (chars "ull") rest then some (vnull, rest.drop 3) else none
      | _ => (jsonParseNum s1).map (fun pr => (vnum pr.1, pr.2))
  | f + 1, true, s, acc =>
      (jsonParseF f false s []).bind (fun pr =>
        let rem1 := pr.2.dropWhile isJsonWs
        match rem1 with
        | ',' :: rem2 => jsonParseF f true rem2 (acc ++ [pr.1])
        | ']' :: rem2 => some (varr (acc ++ [pr.1]), rem2)
        | _ => none)

/-- Model of `JSON.parse`: parse one value and require only whitespace to
remain; `none` models the thrown `SyntaxError`. -/
def jsonParseTop (s : List Char) : Option JsVal :=
  match jsonParseF (2 * s.length + 2) false s [] with
  | some (v, rem) => if rem.dropWhile isJsonWs = [] then some v else none
  | none => none

/-- Truncation toward zero of a rational (`ToIntegerOrInfinity` on a finite
number). -/
def jsTrunc (q : ℚ) : Int := if q < 0 then -(⌊-q⌋) else ⌊q⌋

/-- Range guard of ECMAScript time values: `|t| ≤ 8.64e15` ms, larger values
are an invalid date. -/
def inTimeRange (t : Int) : Bool := t.natAbs ≤ 8640000000000000

/-- Model of `new Date(string)` restricted to the string shapes the modelled
program can produce: ISO `YYYY-MM-DD` (parsed as UTC midnight) and the
slash form `M/D/YYYY` / `MM/DD/YYYY` with a full year (parsed as local
midnight, local time being UTC in this model).  Every other string is outside
the modelled subset and yields an invalid date, as the strings exercised by
the theorems below do in JavaScript. -/
def jsDateParseStr (s : List Char) : Option Int :=
  let iso := jsSplit ['-'] s
  let slash := jsSplit ['/'] s
  match iso with
  | [a, b, c] =>
      if (a.length = 4 ∧ b.length = 2 ∧ c.length = 2) ∧
          (∀ x ∈ a ++ b ++ c, isDigitC x) ∧
          validCivil (digitsVal a) (digitsVal b) (digitsVal c) then
        some (makeDay (digitsVal a) ((digitsVal b : Int) - 1) (digitsVal c) * msPerDay)
      else none
  | _ =>
      match slash with
      | [a, b, c] =>
          if (a ≠ [] ∧ b ≠ [] ∧ c.length ≥ 3) ∧ (∀ x ∈ a ++ b ++ c, isDigitC x) ∧
              validCivil (digitsVal c) (digitsVal a) (digitsVal b) then
            some (makeDay (digitsVal c) ((digitsVal a : Int) - 1) (digitsVal b) * msPerDay)
          else none
      | _ => none

/-- Model of `new Date(value)` for one argument, as a time value (`none` is an
invalid date). -/
def jsNewDate : JsVal → Option Int
  | vnum q => if inTimeRange (jsTrunc q) then some (jsTrunc q) else none
  | vnan => none
  | vnull => some 0
  | vundef => none
  | vbool b => some (if b then 1 else 0)
  | vstr s => jsDateParseStr s
  | varr xs => jsDateParseStr (jsToChars (varr xs))

/-- Model of `new Date(year, monthIndex, day)` on number-or-NaN arguments
(the two-digit-year adjustment and month/day normalisation of `MakeDay`
included). -/
def jsMakeDateYMD : JsVal → JsVal → JsVal → Option Int
  | vnum y, vnum mi, vnum d =>
      let yi := jsTrunc y
      let yA := if 0 ≤ yi ∧ yi ≤ 99 then yi + 1900 else yi
      let t := makeDay yA (jsTrunc mi) (jsTrunc d) * msPerDay
      if inTimeRange t then some t else none
  | _, _, _ => none

/-- Model of `date.getTime()`: `NaN` for an invalid date. -/
def dateGetTime : Option Int → JsVal
  | none => vnan
  | some t => vnum t

/-- Subtract one from a number, `NaN` otherwise (`parseInt(...) - 1`). -/
def jsSub1 : JsVal → JsVal
  | vnum q => vnum (q - 1)
  | _ => vnan

/-- Truthy-or-default reading of an optional string option
(`config?.field || deflt`). -/
def strOr (o : Option (List Char)) (dflt : List Char) : List Char :=
  match o with
  | some s => if s = [] then dflt else s
  | none => dflt

/-- The transform configuration bag (`config?: any`), with one typed field per
key the transformer reads.  User-supplied custom functions are embedded as
Lean functions. -/
structure TransformConfig where
  format : Option (List Char) := none
  decimals : Option Nat := none
  thousands : Bool := false
  currency : Option (List Char) := none
  trueValue : Option (List Char) := none
  falseValue : Option (List Char) := none
  mapping : Option (List (List Char × List Char)) := none
  reverseMapping : Option (List (List Char × List Char)) := none
  fields : Option (List (List Char)) := none
  separator : Option (List Char) := none
  index : Option Nat := none
  customFn : Option (JsVal → JsVal) := none
  customRevFn : Option (JsVal → JsVal) := none

/-- The empty configuration (`config` absent). -/
def emptyCfg : TransformConfig := {}

/-- Association-list lookup with string keys (JS object property read). -/
def lookupStr (m : List (List Char × List Char)) (k : List Char) : Option (List Char) :=
  match m with
  | [] => none
  | (k2, v) :: t => if k2 = k then some v else lookupStr t k

namespace DataTransformer

/-- Model of `DataTransformer.formatDate` (sheets-to-hubspot.ts lines
833-854). -/
def formatDate (value : JsVal) (format : List Char) : JsVal :=
  if truthy value = false then vstr [] else
  match jsNewDate value with
  | none => vstr (jsToChars value)
  | some t =>
      let c := civilFromDay (t / msPerDay)
      let month := padZeros 2 (intToChars c.2.1)
      let day := padZeros 2 (intToChars c.2.2)
      let year := intToChars c.1
      if format = chars "MM/DD/YYYY" then vstr (month ++ '/' :: (day ++ '/' :: year))
      else if format = chars "DD/MM/YYYY" then vstr (day ++ '/' :: (month ++ '/' :: year))
      else if format = chars "YYYY-MM-DD" then vstr (year ++ '-' :: (month ++ '-' :: day))
      else vstr (intToChars c.2.1 ++ '/' :: (intToChars c.2.2 ++ '/' :: year))

/-- Model of `DataTransformer.parseDate` (lines 859-878): falsy input gives
`0`; the `MM/DD/YYYY` format splits on `/` and feeds `parseInt` parts to the
`Date` constructor; everything else goes through `new Date(string)`; the
result is `getTime()` of the produced date, `NaN` when invalid. -/
def parseDate (value : JsVal) (format : List Char) : JsVal :=
  if truthy value = false then vnum 0 else
  let dateStr := jsToChars value
  if format = chars "MM/DD/YYYY" then
    match jsSplit ['/'] dateStr with
    | [p0, p1, p2] =>
        dateGetTime (jsMakeDateYMD (jsParseInt p2) (jsSub1 (jsParseInt p0)) (jsParseInt p1))
    | _ => dateGetTime (jsDateParseStr dateStr)
  else dateGetTime (jsDateParseStr dateStr)

/-- Model of `DataTransformer.formatNumber` (lines 883-896). -/
def formatNumber (value : JsVal) (config : TransformConfig) : JsVal :=
  match jsParseFloatVal value with
  | vnum q =>
      match config.decimals with
      | some dd => vstr (jsToFixed q dd)
      | none => if config.thousands then vstr (jsToLocaleString q) else vstr (ratToChars q)
  | _ => vstr (jsToChars value)

/-- Model of `DataTransformer.parseNumber` (lines 901-906). -/
def parseNumber (value : JsVal) : JsVal :=
  match value with
  | vnum q => vnum q
  | vnan => vnan
  | v =>
      match jsParseFloat (stripNonNumeric (jsToChars v)) with
      | vnum q => vnum q
      | _ => vnum 0

/-- Model of `DataTransformer.formatCurrency` (lines 911-919). -/
def formatCurrency (value : JsVal) (currency : List Char) : JsVal :=
  match jsParseFloatVal value with
  | vnum q => vstr (jsCurrencyFormat q currency)
  | _ => vstr (jsToChars value)

/-- Model of `DataTransformer.parseCurrency` (lines 924-929). -/
def parseCurrency (value : JsVal) : JsVal :=
  match value with
  | vnum q => vnum q
  | vnan => vnan
  | v =>
      match jsParseFloat (stripNonNumeric (jsToChars v)) with
      | vnum q => vnum q
      | _ => vnum 0

/-- Model of `DataTransformer.booleanToText` (lines 934-942). -/
def booleanToText (value : JsVal) (config : TransformConfig) : JsVal :=
  let isTrue := jsStrictEq value (vbool true) ∨ jsStrictEq value (vstr (chars "true")) ∨
    jsStrictEq value (vnum 1)
  match config.trueValue, config.falseValue with
  | some tv, some fv =>
      if tv ≠ [] ∧ fv ≠ [] then vstr (if isTrue then tv else fv)
      else vstr (if isTrue then chars "Yes" else chars "No")
  | _, _ => vstr (if isTrue then chars "Yes" else chars "No")

/-- Model of `DataTransformer.textToBoolean` (lines 947-954). -/
def textToBoolean (value : JsVal) (config : TransformConfig) : JsVal :=
  match config.trueValue with
  | some tv =>
      if tv ≠ [] then vbool (jsStrictEq value (vstr tv))
      else
        let str := jsToLower (jsToChars value)
        vbool (str = chars "yes" ∨ str = chars "true" ∨ str = chars "1")
  | none =>
      let str := jsToLower (jsToChars value)
      vbool (str = chars "yes" ∨ str = chars "true" ∨ str = chars "1")

/-- Model of `DataTransformer.enumToText` (lines 959-962): lookup in the
forward mapping, raw value passed through when the mapping or the entry is
missing or falsy. -/
def enumToText (value : JsVal) (mapping : Option (List (List Char × List Char))) : JsVal :=
  match mapping with
  | none => vstr (jsToChars value)
  | some m =>
      match lookupStr m (jsToChars value) with
      | some t => if t ≠ [] then vstr t else value
      | none => value

/-- Model of `DataTransformer.textToEnum` (lines 967-970). -/
def textToEnum (value : JsVal) (reverseMapping : Option (List (List Char × List Char))) : JsVal :=
  match reverseMapping with
  | none => vstr (jsToChars value)
  | some m =>
      match lookupStr m (jsToChars value) with
      | some t => if t ≠ [] then vstr t else value
      | none => value

/-- Property read `value[field]`: the modelled value universe holds no plain
objects, and on the primitive and array values that reach `CONCATENATE` a
named property read yields `undefined`, as it does in JavaScript. -/
def getProp (_v : JsVal) (_k : List Char) : JsVal := vundef

/-- Model of `DataTransformer.concatenateFields` (lines 975-983). -/
def concatenateFields (value : JsVal) (config : TransformConfig) : JsVal :=
  match config.fields with
  | none => vstr (jsToChars value)
  | some fields =>
      vstr (joinSep (strOr config.separator [' '])
        (fields.map (fun f =>
          let v := getProp value f
          if truthy v then jsToChars v else [])))

/-- Model of `DataTransformer.splitField` (lines 988-997). -/
def splitField (value : JsVal) (config : TransformConfig) : JsVal :=
  let str := jsToChars value
  let parts := jsSplit (strOr config.separator [',']) str
  match config.index with
  | some i =>
      if parts.getD i [] ≠ [] then vstr (jsTrim (parts.getD i []))
      else vstr (parts.headD [])
  | none => vstr (parts.headD [])

/-- Model of `DataTransformer.joinField` (lines 1002-1007). -/
def joinField (value : JsVal) (config : TransformConfig) : JsVal :=
  match value with
  | varr xs => vstr (joinSep (strOr config.separator [',']) (arrElemStrs xs))
  | v => vstr (jsToChars v)

/-- Model of `DataTransformer.toTitleCase` (lines 1012-1016): each `\w\S*`
match keeps its first character upper-cased and the rest lower-cased. -/
def toTitleCase (s : List Char) : List Char :=
  match s with
  | [] => []
  | c :: rest =>
      if isWordC c then
        let run := rest.takeWhile (fun x => isWsChar x = false)
        upperC c :: (jsToLower run ++ toTitleCase (rest.drop run.length))
      else c :: toTitleCase rest
  termination_by s.length
  decreasing_by
    · simp only [List.length_cons, List.length_drop]
      omega
    · simp only [List.length_cons]
      omega

/-- Model of `DataTransformer.formatPhone` (lines 1021-1029). -/
def formatPhone (value : JsVal) (format : List Char) : JsVal :=
  let digits := stripNonDigits (jsToChars value)
  if format = chars "US" ∧ digits.length = 10 then
    vstr ('(' :: (digits.take 3 ++ ')' :: ' ' ::
      ((digits.drop 3).take 3 ++ '-' :: digits.drop 6)))
  else vstr digits

/-- Model of `DataTransformer.parsePhone` (lines 1034-1036). -/
def parsePhone (value : JsVal) : JsVal := vstr (stripNonDigits (jsToChars value))

/-- Model of `DataTransformer.applyCustomFunction` (lines 1041-1054): absent
code returns the value; present code is an embedded pure function (the
modelled sandbox has no throwing path and no database handle). -/
def applyCustomFunction (value : JsVal) (fn : Option (JsVal → JsVal)) : JsVal :=
  match fn with
  | none => value
  | some g => g value

/-- Model of `DataTransformer.applyTransformation` (lines 709-766), the
forward (CRM value to sheet value) direction. -/
def applyTransformation (value : JsVal) (transformType : String) (config : TransformConfig) : JsVal :=
  if transformType = "DATE_FORMAT" then formatDate value (strOr config.format (chars "MM/DD/YYYY"))
  else if transformType = "NUMBER_FORMAT" then formatNumber value config
  else if transformType = "CURRENCY_FORMAT" then
    formatCurrency value (strOr config.currency (chars "USD"))
  else if transformType = "BOOLEAN_TO_TEXT" then booleanToText value config
  else if transformType = "ENUM_TO_TEXT" then enumToText value config.mapping
  else if transformType = "CONCATENATE" then concatenateFields value config
  else if transformType = "SPLIT" then splitField value config
  else if transformType = "UPPERCASE" then vstr (jsToUpper (jsToChars value))
  else if transformType = "LOWERCASE" then vstr (jsToLower (jsToChars value))
  else if transformType = "TITLE_CASE" then vstr (toTitleCase (jsToChars value))
  else if transformType = "TRIM" then vstr (jsTrim (jsToChars value))
  else if transformType = "PHONE_FORMAT" then
    formatPhone value (strOr config.format (chars "US"))
  else if transformType = "EMAIL_NORMALIZE" then vstr (jsTrim (jsToLower (jsToChars value)))
  else if transformType = "JSON_TO_STRING" then
    match jsonStringify value with
    | some s => vstr s
    | none => vundef
  else if transformType = "ARRAY_TO_STRING" then
    match value with
    | varr xs => vstr (joinSep (strOr config.separator (chars ", ")) (arrElemStrs xs))
    | v => v
  else if transformType = "CUSTOM_FUNCTION" then applyCustomFunction value config.customFn
  else value

/-- Model of `DataTransformer.applyReverseTransformation` (lines 771-828),
the reverse (sheet value to CRM value) direction. -/
def applyReverseTransformation (value : JsVal) (transformType : String) (config : TransformConfig) : JsVal :=
  if transformType = "DATE_FORMAT" then parseDate value (strOr config.format (chars "MM/DD/YYYY"))
  else if transformType = "NUMBER_FORMAT" then parseNumber value
  else if transformType = "CURRENCY_FORMAT" then parseCurrency value
  else if transformType = "BOOLEAN_TO_TEXT" then textToBoolean value config
  else if transformType = "ENUM_TO_TEXT" then textToEnum value config.reverseMapping
  else if transformType = "CONCATENATE" then value
  else if transformType = "SPLIT" then joinField value config
  else if transformType = "UPPERCASE" then value
  else if transformType = "LOWERCASE" then value
  else if transformType = "TITLE_CASE" then value
  else if transformType = "TRIM" then value
  else if transformType = "PHONE_FORMAT" then parsePhone value
  else if transformType = "EMAIL_NORMALIZE" then vstr (jsTrim (jsToLower (jsToChars value)))
  else if transformType = "JSON_TO_STRING" then
    match jsonParseTop (jsToChars value) with
    | some v => v
    | none => value
  else if transformType = "ARRAY_TO_STRING" then
    varr ((jsSplit (strOr config.separator (chars ", ")) (jsToChars value)).map vstr)
  else if transformType = "CUSTOM_FUNCTION" then applyCustomFunction value config.customRevFn
  else value

end DataTransformer

/-- A sheet read result (`GoogleSheetsClient.readSheet`): header names and
data rows, the header row excluded. -/
structure SheetData where
  headers : List (List Char)
  rows : List (List JsVal)

/-- A CRM record as the sync engines consume it: identifier and property
map. -/
structure HsRec where
  id : List Char
  properties : List (List Char × JsVal) := []

/-- One CRM API call performed during a run (the call trace of an
execution). -/
inductive CrmOp where
  | search (entityType property : String) (value : JsVal)
  | create (entityType : String) (props : List (List Char × JsVal))
  | update (entityType : String) (recordId : List Char) (props : List (List Char × JsVal))

/-- Property-map write `obj[key] = v` (insertion order kept, existing key
overwritten in place). -/
def setProp (m : List (List Char × JsVal)) (k : List Char) (v : JsVal) :
    List (List Char × JsVal) :=
  match m with
  | [] => [(k, v)]
  | (k2, v2) :: t => if k2 = k then (k2, v) :: t else (k2, v2) :: setProp t k v

/-- Property-map read `obj[key]`. -/
def getPropMap (m : List (List Char × JsVal)) (k : List Char) : Option JsVal :=
  match m with
  | [] => none
  | (k2, v) :: t => if k2 = k then some v else getPropMap t k

/-- Index of a string in a string list (`Array.prototype.indexOf`, `none` for
`-1`). -/
def idxOf (l : List (List Char)) (x : List Char) : Option Nat :=
  match l with
  | [] => none
  | h :: t => if h = x then some 0 else (idxOf t x).map (· + 1)

namespace SheetsToHubSpotSync

/-- One field mapping of the Sheet→CRM direction
(`SheetsToHubSpotSyncConfig.fieldMappings`). -/
structure FieldMapping where
  sheetColumn : List Char
  columnIndex : Nat
  hubspotProperty : List Char
  isRequired : Bool
  transformType : Option String := none

/-- The Sheet→CRM sync configuration (`SheetsToHubSpotSyncConfig`). -/
structure SyncConfig where
  spreadsheetId : List Char := []
  sheetName : List Char := []
  hubspotEntityType : String
  fieldMappings : List FieldMapping
  identifierColumn : List Char
  updateExisting : Bool
  createNew : Bool
  skipInvalid : Bool

/-- The external collaborators of one Sheet→CRM run, as outcome oracles: the
sheet read, the CRM search/create/update calls (keyed by their arguments), and
the persistence operations (job row creation and update, log append fails
uniformly or succeeds uniformly, fingerprint upsert). -/
structure Env where
  readSheet : Except (List Char) SheetData
  search : String → String → JsVal → Except (List Char) (Option HsRec)
  create : String → List (List Char × JsVal) → Except (List Char) HsRec
  update : String → List Char → List (List Char × JsVal) → Except (List Char) HsRec
  jobCreate : Except (List Char) Unit := .ok ()
  jobUpdate : Except (List Char) Unit := .ok ()
  log : Except (List Char) Unit := .ok ()
  upsertState : Except (List Char) Unit := .ok ()

/-- The `SheetsSyncResult` contract. -/
structure SheetsSyncResult where
  success : Bool
  rowsProcessed : Nat
  recordsCreated : Nat
  recordsUpdated : Nat
  recordsSkipped : Nat
  errors : List (Nat × List JsVal × List Char)

/-- Model of `SheetsToHubSpotSync.isEmptyRow` (lines 266-268). -/
def isEmptyRow (row : List JsVal) : Bool :=
  row.all (fun cell => truthy cell = false ∨ jsTrim (jsToChars cell) = [])

/-- Model of `SheetsToHubSpotSync.validateHeaders` (lines 252-261): the first
mapped column missing from the headers, `none` when all are present. -/
def validateHeaders (headers : List (List Char)) (ms : List FieldMapping) :
    Option (List Char) :=
  match ms with
  | [] => none
  | m :: t =>
      if headers.any (fun h => h = m.sheetColumn) then validateHeaders headers t
      else some m.sheetColumn

/-- Model of `SheetsToHubSpotSync.applyTransformation` (lines 300-338), the
per-direction transform of this engine (the unused `propertyName` parameter of
the source is dropped). -/
def applyTransformation (value : JsVal) (transformType : Option String) : JsVal :=
  match transformType with
  | none => value
  | some t =>
      if t = "DATE_TO_TIMESTAMP" then
        match jsNewDate value with
        | none => value
        | some ts => vnum ts
      else if t = "STRING_TO_NUMBER" then
        match jsParseFloat (stripNonNumeric (jsToChars value)) with
        | vnum q => vnum q
        | _ => vnum 0
      else if t = "BOOLEAN_TO_STRING" then
        vstr (if jsToLower (jsToChars value) = chars "true" then chars "true" else chars "false")
      else if t = "TRIM" then vstr (jsTrim (jsToChars value))
      else if t = "LOWERCASE" then vstr (jsToLower (jsToChars value))
      else if t = "UPPERCASE" then vstr (jsToUpper (jsToChars value))
      else if t = "EMAIL_NORMALIZE" then vstr (jsTrim (jsToLower (jsToChars value)))
      else if t = "PHONE_FORMAT" then vstr (stripNonDigits (jsToChars value))
      else value

/-- Model of `SheetsToHubSpotSync.transformRowToHubSpot` (lines 273-295). -/
def transformRowToHubSpot (row : List JsVal) (mappings : List FieldMapping) :
    List (List Char × JsVal) :=
  mappings.foldl (fun props m =>
    let value := row.getD m.columnIndex vundef
    if jsStrictEq value vnull ∨ jsStrictEq value vundef ∨ jsStrictEq value (vstr []) then
      props
    else setProp props m.hubspotProperty (applyTransformation value m.transformType)) []

/-- Model of `SheetsToHubSpotSync.validateRequiredFields` (lines 343-359):
the sheet columns of required properties whose transformed value is missing
or falsy. -/
def validateRequiredFields (data : List (List Char × JsVal)) (mappings : List FieldMapping) :
    List (List Char) :=
  (mappings.filter (fun m =>
    m.isRequired ∧ truthy ((getPropMap data m.hubspotProperty).getD vundef) = false)).map
    (fun m => m.sheetColumn)

/-- Model of `SheetsToHubSpotSync.findHubSpotRecord` (lines 364-420): the
found record (or `null`, also when the search call throws — the catch at line
416 swallows the error) together with the CRM calls performed. -/
def findHubSpotRecord (env : Env) (entityType : String) (identifierProperty : String)
    (identifierValue : JsVal) : Option HsRec × List CrmOp :=
  if entityType = "contacts" then
    if identifierProperty = "email" then
      match env.search "contacts" "email" identifierValue with
      | .ok r => (r, [CrmOp.search "contacts" "email" identifierValue])
      | .error _ => (none, [CrmOp.search "contacts" "email" identifierValue])
    else (none, [])
  else if entityType = "companies" then
    match env.search "companies" identifierProperty identifierValue with
    | .ok r => (r, [CrmOp.search "companies" identifierProperty identifierValue])
    | .error _ => (none, [CrmOp.search "companies" identifierProperty identifierValue])
  else if entityType = "deals" then
    match env.search "deals" identifierProperty identifierValue with
    | .ok r => (r, [CrmOp.search "deals" identifierProperty identifierValue])
    | .error _ => (none, [CrmOp.search "deals" identifierProperty identifierValue])
  else (none, [])

/-- The accumulated run state of the row loop: the result counters, the error
list, and the CRM call trace. -/
structure RowAcc where
  rowsProcessed : Nat := 0
  recordsCreated : Nat := 0
  recordsUpdated : Nat := 0
  recordsSkipped : Nat := 0
  errors : List (Nat × List JsVal × List Char) := []
  ops : List CrmOp := []

/-- Model of one iteration of the row loop of `executeSync` (lines 95-210),
the row-level `try`/`catch` included.  A `Sum.inl` is a completed iteration; a
`Sum.inr` is an exception reaching the row-level catch, carrying the state
mutated so far.  The catch appends the row error and writes a log entry; a
log failure escapes the loop (`Except.error`). -/
def processRowBody (env : Env) (config : SyncConfig) (identifierIndex : Nat)
    (row : List JsVal) (rowNumber : Nat) (acc : RowAcc) : Sum RowAcc (RowAcc × List Char) :=
  if isEmptyRow row then
    .inl { acc with recordsSkipped := acc.recordsSkipped + 1 }
  else
    let hubspotData := transformRowToHubSpot row config.fieldMappings
    let missingFields := validateRequiredFields hubspotData config.fieldMappings
    if missingFields ≠ [] then
      if config.skipInvalid then
        .inl { acc with
          recordsSkipped := acc.recordsSkipped + 1,
          errors := acc.errors ++ [(rowNumber, row,
            chars "Missing required fields: " ++ joinSep (chars ", ") missingFields)] }
      else
        .inr (acc, chars "Row " ++ natToChars rowNumber ++
          chars ": Missing required fields: " ++ joinSep (chars ", ") missingFields)
    else
      let identifier := row.getD identifierIndex vundef
      let found := findHubSpotRecord env config.hubspotEntityType
        (String.mk config.identifierColumn) identifier
      let acc1 := { acc with ops := acc.ops ++ found.2 }
      match found.1 with
      | some existingRecord =>
          if config.updateExisting then
            match env.update config.hubspotEntityType existingRecord.id hubspotData with
            | .error e =>
                .inr ({ acc1 with ops := acc1.ops ++
                  [CrmOp.update config.hubspotEntityType existingRecord.id hubspotData] }, e)
            | .ok _ =>
                let acc2 := { acc1 with
                  recordsUpdated := acc1.recordsUpdated + 1,
                  ops := acc1.ops ++
                    [CrmOp.update config.hubspotEntityType existingRecord.id hubspotData] }
                match env.log with
                | .error e => .inr (acc2, e)
                | .ok _ => .inl { acc2 with rowsProcessed := acc2.rowsProcessed + 1 }
          else
            .inl { acc1 with
              recordsSkipped := acc1.recordsSkipped + 1,
              rowsProcessed := acc1.rowsProcessed + 1 }
      | none =>
          if config.createNew then
            match env.create config.hubspotEntityType hubspotData with
            | .error e =>
                .inr ({ acc1 with ops := acc1.ops ++
                  [CrmOp.create config.hubspotEntityType hubspotData] }, e)
            | .ok _ =>
                let acc2 := { acc1 with
                  recordsCreated := acc1.recordsCreated + 1,
                  ops := acc1.ops ++ [CrmOp.create config.hubspotEntityType hubspotData] }
                match env.log with
                | .error e => .inr (acc2, e)
                | .ok _ =>
                    match env.upsertState with
                    | .error e => .inr (acc2, e)
                    | .ok _ => .inl { acc2 with rowsProcessed := acc2.rowsProcessed + 1 }
          else
            .inl { acc1 with
              recordsSkipped := acc1.recordsSkipped + 1,
              rowsProcessed := acc1.rowsProcessed + 1 }

/-- One row iteration with its row-level catch applied. -/
def processRow (env : Env) (config : SyncConfig) (identifierIndex : Nat)
    (row : List JsVal) (rowNumber : Nat) (acc : RowAcc) :
    Except (List Char × RowAcc) RowAcc :=
  match processRowBody env config identifierIndex row rowNumber acc with
  | .inl acc2 => .ok acc2
  | .inr (acc2, e) =>
      match env.log with
      | .error e2 => .error (e2, acc2)
      | .ok _ => .ok { acc2 with errors := acc2.errors ++ [(rowNumber, row, e)] }

/-- The row loop of `executeSync`. -/
def runRows (env : Env) (config : SyncConfig) (identifierIndex : Nat) :
    List (List JsVal) → Nat → RowAcc → Except (List Char × RowAcc) RowAcc
  | [], _, acc => .ok acc
  | row :: rest, i, acc =>
      match processRow env config identifierIndex row (i + 2) acc with
      | .error e => .error e
      | .ok acc2 => runRows env config identifierIndex rest (i + 1) acc2

/-- The observable outcome of one `executeSync` call: the returned result or
the escaped exception, the final persisted `SyncJob` status (`none` when no
job row was created), and the CRM call trace. -/
structure Outcome where
  result : Except (List Char) SheetsSyncResult
  jobStatus : Option String
  ops : List CrmOp

/-- The outer catch of `executeSync` (lines 230-244): mark the job `FAILED`
and rethrow; a failing job update itself escapes instead, leaving the job
`IN_PROGRESS`. -/
def failPath (env : Env) (e : List Char) (ops : List CrmOp) : Outcome :=
  match env.jobUpdate with
  | .error e2 => ⟨.error e2, some "IN_PROGRESS", ops⟩
  | .ok _ => ⟨.error e, some "FAILED", ops⟩

/-- Model of `SheetsToHubSpotSync.executeSync` (lines 60-247). -/
def executeSync (env : Env) (config : SyncConfig) : Outcome :=
  match env.jobCreate with
  | .error e => ⟨.error e, none, []⟩
  | .ok _ =>
      match env.readSheet with
      | .error e => failPath env e []
      | .ok sheetData =>
          match validateHeaders sheetData.headers config.fieldMappings with
          | some colName =>
              failPath env (chars "Column \"" ++ colName ++ chars "\" not found in sheet") []
          | none =>
              match idxOf sheetData.headers config.identifierColumn with
              | none =>
                  failPath env (chars "Identifier column \"" ++ config.identifierColumn ++
                    chars "\" not found") []
              | some identifierIndex =>
                  match runRows env config identifierIndex sheetData.rows 0 {} with
                  | .error (e, acc) => failPath env e acc.ops
                  | .ok acc =>
                      let success : Bool := acc.errors.length = 0
                      match env.jobUpdate with
                      | .error e2 => failPath env e2 acc.ops
                      | .ok _ =>
                          ⟨.ok {
                            success := success,
                            rowsProcessed := acc.rowsProcessed,
                            recordsCreated := acc.recordsCreated,
                            recordsUpdated := acc.recordsUpdated,
                            recordsSkipped := acc.recordsSkipped,
                            errors := acc.errors },
                          some (if success then "COMPLETED" else "FAILED"), acc.ops⟩

end SheetsToHubSpotSync

/-- JavaScript `Map.set` on a number-keyed map (insertion order kept,
existing key overwritten in place). -/
def mapSet (m : List (Nat × List Char)) (k : Nat) (v : List Char) : List (Nat × List Char) :=
  match m with
  | [] => [(k, v)]
  | (k2, v2) :: t => if k2 = k then (k2, v) :: t else (k2, v2) :: mapSet t k v

/-- JavaScript `Map.get`. -/
def mapGet (m : List (Nat × List Char)) (k : Nat) : Option (List Char) :=
  match m with
  | [] => none
  | (k2, v) :: t => if k2 = k then some v else mapGet t k

/-- JavaScript `Map.delete` (iteration order of the survivors kept). -/
def mapDelete (m : List (Nat × List Char)) (k : Nat) : List (Nat × List Char) :=
  m.filter (fun p => p.1 ≠ k)

namespace SheetsToHubSpotSync

/-- One change entry of `detectChanges`. -/
structure ChangeEntry where
  row : Nat
  type : String
deriving DecidableEq

/-- The state map built from the stored fingerprint rows (lines 570-573):
`Map.set` per stored state in list order. -/
def buildStateMap (syncStates : List (Nat × List Char)) : List (Nat × List Char) :=
  syncStates.foldl (fun m s => mapSet m s.1 s.2) []

/-- The scan over current rows (lines 576-588): classify `new`/`modified`,
delete each visited row number from the working map, return the changes in
row order together with what remains of the map.  The `new` test is the
code's `if (!existingHash)`, a falsiness check: it also fires when the stored
hash is the empty string (which `updateSyncState` writes on every create). -/
def scanRows (hash : List JsVal → List Char) :
    List (List JsVal) → Nat → List (Nat × List Char) →
    List ChangeEntry × List (Nat × List Char)
  | [], _, m => ([], m)
  | row :: rest, idx, m =>
      let rowNumber := idx + 2
      let currentHash := hash row
      let push : List ChangeEntry :=
        match mapGet m rowNumber with
        | none => [⟨rowNumber, "new"⟩]
        | some h =>
            if h = [] then [⟨rowNumber, "new"⟩]
            else if h ≠ currentHash then [⟨rowNumber, "modified"⟩] else []
      let tail := scanRows hash rest (idx + 1) (mapDelete m rowNumber)
      (push ++ tail.1, tail.2)

/-- Model of `SheetsToHubSpotSync.detectChanges` (lines 555-596), as a pure
function of the stored fingerprint states (row number, hash), the current
snapshot rows and the row-hash function of the sheets client. -/
def detectChanges (hash : List JsVal → List Char) (syncStates : List (Nat × List Char))
    (rows : List (List JsVal)) : List ChangeEntry :=
  let scan := scanRows hash rows 0 (buildStateMap syncStates)
  scan.1 ++ scan.2.map (fun p => ⟨p.1, "deleted"⟩)

end SheetsToHubSpotSync

/-- String-keyed `Map.set` with row-number values (the existing-record index
of `updateSheet`). -/
def mapSetStr (m : List (List Char × Nat)) (k : List Char) (v : Nat) : List (List Char × Nat) :=
  match m with
  | [] => [(k, v)]
  | (k2, v2) :: t => if k2 = k then (k2, v) :: t else (k2, v2) :: mapSetStr t k v

/-- String-keyed `Map.get`. -/
def mapGetStr (m : List (List Char × Nat)) (k : List Char) : Option Nat :=
  match m with
  | [] => none
  | (k2, v) :: t => if k2 = k then some v else mapGetStr t k

namespace HubSpotToSheetsSync

/-- One field mapping of the CRM→Sheet direction. -/
structure FieldMapping where
  hubspotProperty : List Char
  sheetColumn : List Char
  columnIndex : Nat
  transformType : Option String := none

/-- The CRM→Sheet sync configuration (`HubSpotToSheetsSyncConfig`). -/
structure SyncConfig where
  spreadsheetId : List Char := []
  sheetName : List Char := []
  hubspotEntityType : String
  fieldMappings : List FieldMapping
  syncMode : String
  keyColumn : Option (List Char) := none

/-- The external collaborators of one CRM→Sheet run as outcome oracles.  The
paged CRM fetch is collapsed into the accumulated record list it produces. -/
structure Env where
  fetchAll : Except (List Char) (List HsRec)
  readSheet : Except (List Char) SheetData
  clearRange : Except (List Char) Unit := .ok ()
  writeSheet : Except (List Char) Unit := .ok ()
  appendToSheet : Except (List Char) Unit := .ok ()
  updateCells : Except (List Char) Unit := .ok ()
  jobCreate : Except (List Char) Unit := .ok ()
  jobUpdate : Except (List Char) Unit := .ok ()
  upsertState : Except (List Char) Unit := .ok ()

/-- The `SyncResult` contract of this engine. -/
structure SyncResult where
  success : Bool
  recordsProcessed : Nat
  recordsCreated : Nat
  recordsUpdated : Nat
  recordsSkipped : Nat
  errors : List (List Char)

/-- Model of `HubSpotToSheetsSync.applyTransformation` (lines 264-289). -/
def applyTransformation (value : JsVal) (transformType : Option String) : JsVal :=
  match transformType with
  | none => value
  | some t =>
      if truthy value = false then value
      else if t = "DATE_FORMAT" then
        match jsNewDate value with
        | some ts =>
            let c := civilFromDay (ts / msPerDay)
            vstr (intToChars c.2.1 ++ '/' :: (intToChars c.2.2 ++ '/' :: intToChars c.1))
        | none => vstr (chars "Invalid Date")
      else if t = "UPPERCASE" then vstr (jsToUpper (jsToChars value))
      else if t = "LOWERCASE" then vstr (jsToLower (jsToChars value))
      else if t = "NUMBER" then
        match jsParseFloatVal value with
        | vnum q => vnum q
        | _ => vnum 0
      else if t = "BOOLEAN" then
        vstr (if jsStrictEq value (vstr (chars "true")) ∨ jsStrictEq value (vbool true)
          then chars "TRUE" else chars "FALSE")
      else value

/-- Array index assignment `row[i] = v` on a JS array (holes are
`undefined`; assignment beyond the end grows the array). -/
def setIdx (l : List JsVal) (i : Nat) (v : JsVal) : List JsVal :=
  if i < l.length then l.set i v
  else l ++ List.replicate (i - l.length) vundef ++ [v]

/-- Model of `HubSpotToSheetsSync.transformData` (lines 231-259): one sheet
row per record, cell values placed at each mapping's column index (falsy
transformed values become the empty string), the record id prepended. -/
def transformData (records : List HsRec) (mappings : List FieldMapping) : List (List JsVal) :=
  records.map (fun record =>
    let row := mappings.foldl (fun row m =>
      let value := (getPropMap record.properties m.hubspotProperty).getD vundef
      let value := applyTransformation value m.transformType
      setIdx row m.columnIndex (if truthy value then value else vstr []))
      (List.replicate mappings.length vundef)
    vstr record.id :: row)

/-- Model of `HubSpotToSheetsSync.prepareHeaders` (lines 294-304). -/
def prepareHeaders (mappings : List FieldMapping) : List (List Char) :=
  chars "HubSpot ID" ::
    (mappings.mergeSort (fun a b => a.columnIndex ≤ b.columnIndex)).map
      (fun m => m.sheetColumn)

/-- The outcome of `updateSheet`: the counters it returns and the cell-update
and append batches it queued. -/
structure UpdateOutcome where
  updated : Nat
  created : Nat
  skipped : Nat
  updates : List (List Char × List (List JsVal))
  appends : List (List JsVal)

/-- The A1-style range string `'sheet'!A<row>` targeted by one queued cell
update. -/
def rangeA (sheetName : List Char) (rowNumber : Nat) : List Char :=
  '\'' :: (sheetName ++ '\'' :: '!' :: 'A' :: natToChars rowNumber)

/-- The existing-record index of `updateSheet` (lines 364-370): key value of
each existing row (when truthy) mapped to its 1-based sheet row number. -/
def buildKeyMap (rows : List (List JsVal)) (keyColumnIndex : Nat) : List (List Char × Nat) :=
  (rows.enum.foldl (fun m p =>
    let key := p.2.getD keyColumnIndex vundef
    if truthy key then mapSetStr m (jsToChars key) (p.1 + 2) else m) [])

/-- The matching loop of `updateSheet` (lines 372-398). -/
def matchRows (sheetName : List Char) (existingRecords : List (List Char × Nat)) :
    List (List JsVal) → Nat → UpdateOutcome → UpdateOutcome
  | [], _, out => out
  | row :: rest, keyColumnIndex, out =>
      let keyValue := row.getD (keyColumnIndex + 1) vundef
      if truthy keyValue = false then
        matchRows sheetName existingRecords rest keyColumnIndex
          { out with skipped := out.skipped + 1 }
      else
        match mapGetStr existingRecords (jsToChars keyValue) with
        | some existingRowNumber =>
            matchRows sheetName existingRecords rest keyColumnIndex
              { out with
                updated := out.updated + 1,
                updates := out.updates ++ [(rangeA sheetName existingRowNumber, [row])] }
        | none =>
            matchRows sheetName existingRecords rest keyColumnIndex
              { out with created := out.created + 1, appends := out.appends ++ [row] }

/-- Model of `HubSpotToSheetsSync.updateSheet` (lines 346-411) up to the two
batched writes: the key-column index is resolved (a missing key column
throws), the existing rows are indexed, and each new row is queued as a
targeted update or an append (rows with a falsy key value are skipped). -/
def updateSheet (sheetName : List Char) (existingData : SheetData)
    (newData : List (List JsVal)) (keyColumn : List Char) :
    Except (List Char) UpdateOutcome :=
  match idxOf existingData.headers keyColumn with
  | none => .error (chars "Key column \"" ++ keyColumn ++ chars "\" not found in sheet")
  | some keyColumnIndex =>
      .ok (matchRows sheetName (buildKeyMap existingData.rows keyColumnIndex)
        newData keyColumnIndex ⟨0, 0, 0, [], []⟩)

/-- The observable outcome of one CRM→Sheet `executeSync` call. -/
structure Outcome where
  result : Except (List Char) SyncResult
  jobStatus : Option String

/-- The catch block of `executeSync` (lines 150-163): push the error onto the
result, mark the job `FAILED`, and return the result; a failing job update
escapes instead. -/
def catchPath (env : Env) (r : SyncResult) (e : List Char) : Outcome :=
  match env.jobUpdate with
  | .error e2 => ⟨.error e2, some "IN_PROGRESS"⟩
  | .ok _ => ⟨.ok { r with errors := r.errors ++ [e] }, some "FAILED"⟩

/-- The mode dispatch of the `try` body (lines 90-127): overwrite, append,
update (with its two conditional batched writes), or nothing for an
unrecognized mode. -/
def modeStep (env : Env) (config : SyncConfig) (sheetData : SheetData)
    (transformed : List (List JsVal)) : Except (List Char × SyncResult) SyncResult :=
  let r0 : SyncResult := ⟨false, 0, 0, 0, 0, []⟩
  if config.syncMode = "overwrite" then
    match env.clearRange with
    | .error e => .error (e, r0)
    | .ok _ =>
        match env.writeSheet with
        | .error e => .error (e, r0)
        | .ok _ => .ok { r0 with recordsCreated := transformed.length }
  else if config.syncMode = "append" then
    match env.appendToSheet with
    | .error e => .error (e, r0)
    | .ok _ => .ok { r0 with recordsCreated := transformed.length }
  else if config.syncMode = "update" then
    match updateSheet config.sheetName sheetData transformed
        ((config.keyColumn).getD (chars "email")) with
    | .error e => .error (e, r0)
    | .ok u =>
        match (if u.updates.length > 0 then env.updateCells else .ok ()) with
        | .error e => .error (e, r0)
        | .ok _ =>
            match (if u.appends.length > 0 then env.appendToSheet else .ok ()) with
            | .error e => .error (e, r0)
            | .ok _ => .ok { r0 with
                recordsUpdated := u.updated,
                recordsCreated := u.created,
                recordsSkipped := u.skipped }
  else .ok r0

/-- The tail of the `try` body (lines 128-148): set `success = true` and the
processed count, update the job row, then `updateSyncState`, which performs
one fingerprint upsert per transformed row (uniform oracle) — and therefore
makes no database call at all when the transformed row list is empty. -/
def commitStep (env : Env) (n : Nat) (transformed : List (List JsVal))
    (afterMode : Except (List Char × SyncResult) SyncResult) :
    Except (List Char × SyncResult) SyncResult :=
  match afterMode with
  | .error e => .error e
  | .ok r1 =>
      let r2 := { r1 with recordsProcessed := n, success := true }
      match env.jobUpdate with
      | .error e => .error (e, r2)
      | .ok _ =>
          match (if transformed.length > 0 then env.upsertState else .ok ()) with
          | .error e => .error (e, r2)
          | .ok _ => .ok r2

/-- The `try` body of `executeSync` (lines 71-149) as a partial-result
computation: an `Except.error` carries the result as mutated when the
exception was raised. -/
def tryBody (env : Env) (config : SyncConfig) : Except (List Char × SyncResult) SyncResult :=
  let r0 : SyncResult := ⟨false, 0, 0, 0, 0, []⟩
  match env.fetchAll with
  | .error e => .error (e, r0)
  | .ok hubspotData =>
      match env.readSheet with
      | .error e => .error (e, r0)
      | .ok sheetData =>
          commitStep env hubspotData.length
            (transformData hubspotData config.fieldMappings)
            (modeStep env config sheetData (transformData hubspotData config.fieldMappings))

/-- Model of `HubSpotToSheetsSync.executeSync` (lines 53-166).  Unlike the
Sheet→CRM engine, the catch does not rethrow: the (partial) result is
returned with the error appended. -/
def executeSync (env : Env) (config : SyncConfig) : Outcome :=
  match env.jobCreate with
  | .error e => ⟨.error e, none⟩
  | .ok _ =>
      match tryBody env config with
      | .ok r => ⟨.ok r, some "COMPLETED"⟩
      | .error (e, r) => catchPath env r e

end HubSpotToSheetsSync

theorem truthy_false_characterization (c : JsVal) :
    ((truthy c = false ∨ jsTrim (jsToChars c) = []) ↔
      (c = vnull ∨ c = vundef ∨ c = vbool false ∨ c = vnum 0 ∨ c = vnan ∨
        jsTrim (jsToChars c) = [])) := by
  cases c with
  | vnull => simp [truthy]
  | vundef => simp [truthy]
  | vnan => simp [truthy]
  | vbool b => cases b <;> simp [truthy]
  | vnum q =>
      by_cases hq : q = 0 <;> simp [truthy, hq]
  | vstr s =>
      by_cases hs : s = [] <;> simp [truthy, hs, jsToChars, jsToCharsF, jsTrim]
  | varr xs => simp [truthy]

/-- C5 (counterexample): the claim "`isEmptyRow(row)` returns true iff every
cell is null, undefined, or blank after trimming" fails at the one-cell row
`[false]`: the boolean cell `false` is falsy, so the code reports the row
empty, yet `false` is neither null nor undefined nor blank after trimming
(`String(false).trim()` is `"false"`).  A numeric `0` cell fails the same way,
and `readSheet` requests unformatted values, so boolean and numeric cells do
occur. -/
theorem c5_counterexample :
    SheetsToHubSpotSync.isEmptyRow [vbool false] = true ∧
    jsTrim (jsToChars (vbool false)) = chars "false" ∧
    vbool false ≠ vnull ∧ vbool false ≠ vundef := by
  refine ⟨rfl, rfl, ?_, ?_⟩
  · intro h; exact JsVal.noConfusion h
  · intro h; exact JsVal.noConfusion h

/-- C5 (amended): `isEmptyRow(row)` is true iff every cell is null,
undefined, otherwise falsy (`false`, the number `0`, `NaN`), or blank after
trimming; the property holds for rows of any width including zero-length. -/
theorem c5_isEmptyRow_iff (row : List JsVal) :
    SheetsToHubSpotSync.isEmptyRow row = true ↔
      ∀ cell ∈ row, cell = vnull ∨ cell = vundef ∨ cell = vbool false ∨
        cell = vnum 0 ∨ cell = vnan ∨ jsTrim (jsToChars cell) = [] := by
  unfold SheetsToHubSpotSync.isEmptyRow
  rw [List.all_eq_true]
  constructor
  · intro h cell hc
    exact (truthy_false_characterization cell).mp (by simpa using h cell hc)
  · intro h cell hc
    simpa using (truthy_false_characterization cell).mpr (h cell hc)

/-- C5 (witness): the amended equivalence applied at the concrete row
`[null, "  ", false]` (empty by the code) and at `["x"]` (not empty). -/
theorem c5_isEmptyRow_iff_witness :
    (SheetsToHubSpotSync.isEmptyRow [vnull, vstr [' ', ' '], vbool false] = true) ∧
      (SheetsToHubSpotSync.isEmptyRow [vstr ['x']] ≠ true) := by
  constructor
  · exact (c5_isEmptyRow_iff [vnull, vstr [' ', ' '], vbool false]).mpr (by
      intro cell hc
      simp only [List.mem_cons, List.not_mem_nil, or_false] at hc
      rcases hc with h | h | h
      · exact Or.inl h
      · subst h; right; right; right; right; right; rfl
      · subst h; right; right; left; rfl)
  · intro hb
    have hcell := (c5_isEmptyRow_iff [vstr ['x']]).mp hb (vstr ['x']) (by simp)
    rcases hcell with h | h | h | h | h | h
    · exact JsVal.noConfusion h
    · exact JsVal.noConfusion h
    · exact JsVal.noConfusion h
    · exact JsVal.noConfusion h
    · exact JsVal.noConfusion h
    · have : jsTrim (jsToChars (vstr ['x'])) = ['x'] := rfl
      rw [this] at h
      exact List.noConfusion h

/-- The transform types `DataTransformer.applyTransformation` recognizes. -/
def dataTransformerTypes : List String :=
  ["DATE_FORMAT", "NUMBER_FORMAT", "CURRENCY_FORMAT", "BOOLEAN_TO_TEXT", "ENUM_TO_TEXT",
   "CONCATENATE", "SPLIT", "UPPERCASE", "LOWERCASE", "TITLE_CASE", "TRIM", "PHONE_FORMAT",
   "EMAIL_NORMALIZE", "JSON_TO_STRING", "ARRAY_TO_STRING", "CUSTOM_FUNCTION"]

/-- The transform types `SheetsToHubSpotSync.applyTransformation` recognizes. -/
def sheetsToHubSpotTypes : List String :=
  ["DATE_TO_TIMESTAMP", "STRING_TO_NUMBER", "BOOLEAN_TO_STRING", "TRIM", "LOWERCASE",
   "UPPERCASE", "EMAIL_NORMALIZE", "PHONE_FORMAT"]

/-- C7: an unrecognized transform type is the identity in all three transform
dispatchers — the two directions of the `DataTransformer` and the per-engine
transform of `SheetsToHubSpotSync` (whose absent transform type is also the
identity).  The modelled functions are total, so no such call can throw. -/
theorem c7_unrecognized_identity :
    (∀ (v : JsVal) (cfg : TransformConfig) (t : String), t ∉ dataTransformerTypes →
      DataTransformer.applyTransformation v t cfg = v) ∧
    (∀ (v : JsVal) (cfg : TransformConfig) (t : String), t ∉ dataTransformerTypes →
      DataTransformer.applyReverseTransformation v t cfg = v) ∧
    (∀ (v : JsVal) (t : Option String),
      (∀ sVal, t = some sVal → sVal ∉ sheetsToHubSpotTypes) →
      SheetsToHubSpotSync.applyTransformation v t = v) := by
  refine ⟨?_, ?_, ?_⟩
  · intro v cfg t ht
    simp only [dataTransformerTypes, List.mem_cons, List.not_mem_nil, or_false, not_or] at ht
    obtain ⟨h1, h2, h3, h4, h5, h6, h7, h8, h9, h10, h11, h12, h13, h14, h15, h16⟩ := ht
    unfold DataTransformer.applyTransformation
    simp only [h1, h2, h3, h4, h5, h6, h7, h8, h9, h10, h11, h12, h13, h14, h15, h16,
      if_false]
  · intro v cfg t ht
    simp only [dataTransformerTypes, List.mem_cons, List.not_mem_nil, or_false, not_or] at ht
    obtain ⟨h1, h2, h3, h4, h5, h6, h7, h8, h9, h10, h11, h12, h13, h14, h15, h16⟩ := ht
    unfold DataTransformer.applyReverseTransformation
    simp only [h1, h2, h3, h4, h5, h6, h7, h8, h9, h10, h11, h12, h13, h14, h15, h16,
      if_false]
  · intro v t ht
    match t with
    | none => rfl
    | some sVal =>
        have hs := ht sVal rfl
        simp only [sheetsToHubSpotTypes, List.mem_cons, List.not_mem_nil, or_false,
          not_or] at hs
        obtain ⟨h1, h2, h3, h4, h5, h6, h7, h8⟩ := hs
        unfold SheetsToHubSpotSync.applyTransformation
        simp only [h1, h2, h3, h4, h5, h6, h7, h8, if_false]

/-- C7 (witness): the identity behaviour at the concrete unknown type
`"FOO"` on a string value. -/
theorem c7_unrecognized_identity_witness :
    DataTransformer.applyTransformation (vstr ['x']) "FOO" emptyCfg = vstr ['x'] ∧
    DataTransformer.applyReverseTransformation (vstr ['x']) "FOO" emptyCfg = vstr ['x'] ∧
    SheetsToHubSpotSync.applyTransformation (vstr ['x']) (some "FOO") = vstr ['x'] := by
  refine ⟨?_, ?_, ?_⟩
  · exact c7_unrecognized_identity.1 (vstr ['x']) emptyCfg "FOO" (by decide)
  · exact c7_unrecognized_identity.2.1 (vstr ['x']) emptyCfg "FOO" (by decide)
  · exact c7_unrecognized_identity.2.2 (vstr ['x']) (some "FOO")
      (fun sVal h => by injection h with h2; subst h2; decide)

/-- C10: for entity type `contacts` with any identifier column other than
`email`, `findHubSpotRecord` performs no CRM search call at all (empty call
trace) and returns `null`, whatever records the CRM holds. -/
theorem c10_contacts_non_email (env : SheetsToHubSpotSync.Env) (prop : String)
    (v : JsVal) (h : prop ≠ "email") :
    SheetsToHubSpotSync.findHubSpotRecord env "contacts" prop v = (none, []) := by
  unfold SheetsToHubSpotSync.findHubSpotRecord
  rw [if_pos rfl, if_neg h]

/-- A Sheet→CRM environment whose CRM search always finds a record and whose
other calls all succeed: used to witness that the contacts search is skipped
even when a matching record exists. -/
def envAllFound : SheetsToHubSpotSync.Env where
  readSheet := .ok ⟨[], []⟩
  search := fun _ _ _ => .ok (some ⟨chars "existing-id", []⟩)
  create := fun _ p => .ok ⟨chars "created-id", p⟩
  update := fun _ i p => .ok ⟨i, p⟩

/-- C10 (witness): with a `phone` identifier column the search that would find
`existing-id` is never made and the row is treated as not found. -/
theorem c10_contacts_non_email_witness :
    SheetsToHubSpotSync.findHubSpotRecord envAllFound "contacts" "phone"
      (vstr (chars "555")) = (none, []) :=
  c10_contacts_non_email envAllFound "phone" (vstr (chars "555")) (by decide)

namespace SheetsToHubSpotSync

/-- C9: a CRM search failure inside `findHubSpotRecord` is swallowed (the
catch returns `null`), and a row whose search failed therefore takes the
not-found branch: with `createNew` set, the row-level processing creates a
record, counts it created, and records no row error. -/
theorem c9_search_error_swallowed :
    (∀ (env : Env) (et prop : String) (v : JsVal) (e : List Char),
      env.search et prop v = .error e →
      (findHubSpotRecord env et prop v).1 = none) ∧
    (∀ (env : Env) (cfg : SyncConfig) (idIdx : Nat) (row : List JsVal) (rowNumber : Nat)
      (acc : RowAcc) (rec : HsRec),
      isEmptyRow row = false →
      validateRequiredFields (transformRowToHubSpot row cfg.fieldMappings)
        cfg.fieldMappings = [] →
      (findHubSpotRecord env cfg.hubspotEntityType (String.mk cfg.identifierColumn)
        (row.getD idIdx vundef)).1 = none →
      cfg.createNew = true →
      env.create cfg.hubspotEntityType (transformRowToHubSpot row cfg.fieldMappings) =
        .ok rec →
      env.log = .ok () →
      env.upsertState = .ok () →
      ∃ acc2, processRow env cfg idIdx row rowNumber acc = .ok acc2 ∧
        acc2.errors = acc.errors ∧
        acc2.recordsCreated = acc.recordsCreated + 1 ∧
        acc2.ops = acc.ops ++
          (findHubSpotRecord env cfg.hubspotEntityType (String.mk cfg.identifierColumn)
            (row.getD idIdx vundef)).2 ++
          [CrmOp.create cfg.hubspotEntityType (transformRowToHubSpot row cfg.fieldMappings)]) := by
  constructor
  · intro env et prop v e hsearch
    unfold findHubSpotRecord
    split_ifs with h1 h2 h3 h4
    · subst h1; subst h2; rw [hsearch]
    · rfl
    · subst h3; rw [hsearch]
    · subst h4; rw [hsearch]
    · rfl
  · intro env cfg idIdx row rowNumber acc rec hEmpty hValid hFound hCreate hCreateOk hLog hUpsert
    unfold processRow processRowBody
    rw [hEmpty]
    simp only [Bool.false_eq_true, if_false, hValid, ne_eq, not_true_eq_false, if_false,
      List.append_assoc]
    rw [hFound]
    simp only [hCreate, if_true]
    rw [hCreateOk]
    simp only [hLog, hUpsert]
    exact ⟨_, rfl, rfl, rfl, rfl⟩

/-- The Sheet→CRM configuration of the C9 witness: contacts keyed by the
`email` identifier column, creation enabled. -/
def cfgC9 : SyncConfig where
  hubspotEntityType := "contacts"
  fieldMappings := [⟨chars "Email", 0, chars "email", true, none⟩]
  identifierColumn := chars "email"
  updateExisting := true
  createNew := true
  skipInvalid := true

/-- An environment whose CRM search always throws and whose other calls
succeed. -/
def envSearchErr : Env where
  readSheet := .ok ⟨[chars "email"], [[vstr (chars "a@x.com")]]⟩
  search := fun _ _ _ => .error (chars "HubSpot API unavailable")
  create := fun _ p => .ok ⟨chars "new-id", p⟩
  update := fun _ i p => .ok ⟨i, p⟩

/-- C9 (witness): at a concrete row whose CRM search throws, processing
creates the record and records no error. -/
theorem c9_search_error_swallowed_witness :
    ∃ acc2, processRow envSearchErr cfgC9 0 [vstr (chars "a@x.com")] 2 {} = .ok acc2 ∧
      acc2.errors = ({} : RowAcc).errors ∧
      acc2.recordsCreated = ({} : RowAcc).recordsCreated + 1 ∧
      acc2.ops = ({} : RowAcc).ops ++
        (findHubSpotRecord envSearchErr cfgC9.hubspotEntityType
          (String.mk cfgC9.identifierColumn)
          (([vstr (chars "a@x.com")]).getD 0 vundef)).2 ++
        [CrmOp.create cfgC9.hubspotEntityType
          (transformRowToHubSpot [vstr (chars "a@x.com")] cfgC9.fieldMappings)] :=
  c9_search_error_swallowed.2 envSearchErr cfgC9 0 [vstr (chars "a@x.com")] 2 {}
    ⟨chars "new-id", transformRowToHubSpot [vstr (chars "a@x.com")] cfgC9.fieldMappings⟩
    rfl rfl rfl rfl rfl rfl rfl

end SheetsToHubSpotSync

/-- C6 (counterexample): the claim "DATE_FORMAT applied in reverse to an
unparsable string returns the number 0" is false: `parseDate` returns
`date.getTime()` without any fallback, which is `NaN` for the unparsable
non-empty string `"hello"` (`"hello".split('/')` has one part, so the code
takes `new Date("hello")`, an invalid date). -/
theorem c6_counterexample :
    DataTransformer.applyReverseTransformation (vstr (chars "hello")) "DATE_FORMAT"
      emptyCfg = vnan ∧ vnan ≠ vnum 0 := by
  constructor
  · rfl
  · intro h; exact JsVal.noConfusion h

/-- C6 (amended): `DATE_FORMAT` forward on a truthy unparsable value returns
`String(value)` unchanged — for a string input, the original string; the
reverse returns `0` exactly for falsy input (the empty string), and for a
truthy unparsable string (one that neither parses as a date nor splits into
three `/`-parts, or whose year part is not numeric) it returns `NaN`, not
`0`. -/
theorem c6_dateformat_invalid (s : List Char) (fmt : List Char) :
    (s ≠ [] → jsDateParseStr s = none →
      DataTransformer.formatDate (vstr s) fmt = vstr s) ∧
    (∀ v : JsVal, truthy v = false → DataTransformer.parseDate v fmt = vnum 0) ∧
    (s ≠ [] → jsDateParseStr s = none → (jsSplit ['/'] s).length ≠ 3 →
      DataTransformer.parseDate (vstr s) (chars "MM/DD/YYYY") = vnan) ∧
    (∀ p0 p1 p2, s ≠ [] → jsSplit ['/'] s = [p0, p1, p2] → jsParseInt p2 = vnan →
      DataTransformer.parseDate (vstr s) (chars "MM/DD/YYYY") = vnan) := by
  refine ⟨?_, ?_, ?_, ?_⟩
  · intro hne hparse
    unfold DataTransformer.formatDate
    have ht : truthy (vstr s) = true := by simp [truthy, hne]
    rw [ht]
    simp only [Bool.true_eq_false, if_false]
    have hnd : jsNewDate (vstr s) = none := hparse
    rw [hnd]
    rfl
  · intro v hv
    unfold DataTransformer.parseDate
    rw [hv]
    simp
  · intro hne hparse hsplit
    unfold DataTransformer.parseDate
    have ht : truthy (vstr s) = true := by simp [truthy, hne]
    rw [ht]
    simp only [Bool.true_eq_false, if_false, if_pos rfl]
    have hchars : jsToChars (vstr s) = s := rfl
    rw [hchars]
    match hs : jsSplit ['/'] s with
    | [] => rw [hparse]; rfl
    | [p0] => rw [hparse]; rfl
    | [p0, p1] => rw [hparse]; rfl
    | [p0, p1, p2] => exact absurd (by rw [hs]; rfl) hsplit
    | p0 :: p1 :: p2 :: p3 :: t => rw [hparse]; rfl
  · intro p0 p1 p2 hne hsplit hp2
    unfold DataTransformer.parseDate
    have ht : truthy (vstr s) = true := by simp [truthy, hne]
    rw [ht]
    simp only [Bool.true_eq_false, if_false, if_pos rfl]
    have hchars : jsToChars (vstr s) = s := rfl
    rw [hchars, hsplit]
    simp only [if_true]
    rw [hp2]
    rfl

/-- C6 (witness): the amended statement at `"hello"` (one split part, invalid
date) and at the empty string (falsy, parses to `0`). -/
theorem c6_dateformat_invalid_witness :
    DataTransformer.formatDate (vstr (chars "hello")) (chars "MM/DD/YYYY") =
      vstr (chars "hello") ∧
    DataTransformer.parseDate (vstr []) (chars "MM/DD/YYYY") = vnum 0 ∧
    DataTransformer.parseDate (vstr (chars "hello")) (chars "MM/DD/YYYY") = vnan := by
  refine ⟨?_, ?_, ?_⟩
  · exact (c6_dateformat_invalid (chars "hello") (chars "MM/DD/YYYY")).1 (by decide) rfl
  · exact (c6_dateformat_invalid (chars "hello") (chars "MM/DD/YYYY")).2.1 (vstr [])
      (by decide)
  · exact (c6_dateformat_invalid (chars "hello") (chars "MM/DD/YYYY")).2.2.1 (by decide)
      rfl (by decide)

namespace SheetsToHubSpotSync

/-- Spec-side classification of a single current row, written from the
amended spec wording: `new` when the stored map has no entry for the row
number or the stored hash is empty (the code's falsy test), `modified` when
it has a non-empty stored hash that differs from the current hash, and no
entry at all when the non-empty stored hash equals the current hash. -/
def specClassifyRow (hash : List JsVal → List Char) (m0 : List (Nat × List Char))
    (row : List JsVal) (n : Nat) : List ChangeEntry :=
  match mapGet m0 n with
  | none => [⟨n, "new"⟩]
  | some h =>
      if h = [] then [⟨n, "new"⟩]
      else if h ≠ hash row then [⟨n, "modified"⟩] else []

/-- Spec-side scan, written from the spec's words: every current row is
classified against the original stored map (row number = index + 2); the
bookkeeping deletions play no role in the classification itself. -/
def specScan (hash : List JsVal → List Char) (m0 : List (Nat × List Char)) :
    List (List JsVal) → Nat → List ChangeEntry
  | [], _ => []
  | row :: rest, idx =>
      specClassifyRow hash m0 row (idx + 2) ++ specScan hash m0 rest (idx + 1)

/-- Spec-side change detection, written from the spec's words: the
classification of the current rows, followed by a `deleted` entry for every
stored row number with no current counterpart (the current row numbers are
exactly 2 .. rows.length + 1), in stored-map order. -/
def detectChangesSpec (hash : List JsVal → List Char)
    (syncStates : List (Nat × List Char)) (rows : List (List JsVal)) :
    List ChangeEntry :=
  let m0 := buildStateMap syncStates
  specScan hash m0 rows 0 ++
    (m0.filter (fun p => decide (p.1 < 2 ∨ 2 + rows.length ≤ p.1))).map
      (fun p => ⟨p.1, "deleted"⟩)

end SheetsToHubSpotSync

theorem mapGet_mapDelete (m : List (Nat × List Char)) (k j : Nat) :
    mapGet (mapDelete m k) j = if j = k then none else mapGet m j := by
  induction m with
  | nil => simp [mapDelete, mapGet]
  | cons p t ih =>
    obtain ⟨k2, v⟩ := p
    show mapGet (List.filter _ ((k2, v) :: t)) j = _
    rw [List.filter_cons]
    by_cases hk : k2 = k
    · rw [if_neg (by simp [hk])]
      rw [show mapDelete t k = List.filter _ t from rfl] at ih
      rw [ih]
      by_cases hj : j = k
      · rw [if_pos hj, if_pos hj]
      · rw [if_neg hj, if_neg hj]
        show mapGet t j = mapGet ((k2, v) :: t) j
        rw [show mapGet ((k2, v) :: t) j
            = if k2 = j then some v else mapGet t j from rfl]
        rw [if_neg (by omega)]
    · rw [if_pos (by simp [hk])]
      rw [show mapGet ((k2, v) :: List.filter _ t) j
          = if k2 = j then some v else mapGet (List.filter _ t) j from rfl]
      rw [show mapGet ((k2, v) :: t) j
          = if k2 = j then some v else mapGet t j from rfl]
      rw [show mapDelete t k = List.filter _ t from rfl] at ih
      by_cases hj : k2 = j
      · rw [if_pos hj, if_neg (by omega), if_pos hj]
      · rw [if_neg hj, if_neg hj, ih]

namespace SheetsToHubSpotSync

theorem specScan_mapDelete (hash : List JsVal → List Char)
    (m : List (Nat × List Char)) (k : Nat) (rows : List (List JsVal)) (idx : Nat)
    (hk : k < idx + 2) :
    specScan hash (mapDelete m k) rows idx = specScan hash m rows idx := by
  induction rows generalizing idx with
  | nil => rfl
  | cons row rest ih =>
    show specClassifyRow hash (mapDelete m k) row (idx + 2)
          ++ specScan hash (mapDelete m k) rest (idx + 1)
        = specClassifyRow hash m row (idx + 2) ++ specScan hash m rest (idx + 1)
    rw [ih (idx + 1) (by omega)]
    unfold specClassifyRow
    rw [mapGet_mapDelete, if_neg (by omega)]

theorem scanRows_fst (hash : List JsVal → List Char) (rows : List (List JsVal))
    (idx : Nat) (m : List (Nat × List Char)) :
    (scanRows hash rows idx m).1 = specScan hash m rows idx := by
  induction rows generalizing idx m with
  | nil => rfl
  | cons row rest ih =>
    have h1 : (scanRows hash (row :: rest) idx m).1
        = specClassifyRow hash m row (idx + 2)
          ++ (scanRows hash rest (idx + 1) (mapDelete m (idx + 2))).1 := rfl
    rw [h1, ih, specScan_mapDelete hash m (idx + 2) rest (idx + 1) (by omega)]
    rfl

theorem scanRows_snd (hash : List JsVal → List Char) (rows : List (List JsVal))
    (idx : Nat) (m : List (Nat × List Char)) :
    (scanRows hash rows idx m).2
      = m.filter (fun p => decide (p.1 < idx + 2 ∨ idx + 2 + rows.length ≤ p.1)) := by
  induction rows generalizing idx m with
  | nil =>
    show m = _
    symm
    rw [List.filter_eq_self]
    intro a _
    simp only [List.length_nil, decide_eq_true_eq]
    omega
  | cons row rest ih =>
    have h1 : (scanRows hash (row :: rest) idx m).2
        = (scanRows hash rest (idx + 1) (mapDelete m (idx + 2))).2 := rfl
    rw [h1, ih]
    show (List.filter _ m).filter _ = _
    rw [List.filter_filter]
    apply List.filter_congr
    intro p _
    rw [Bool.eq_iff_iff]
    simp only [Bool.and_eq_true, decide_eq_true_eq, ne_eq, List.length_cons]
    omega

theorem specClassifyRow_row (hash : List JsVal → List Char)
    (m0 : List (Nat × List Char)) (row : List JsVal) (n : Nat) (e : ChangeEntry)
    (h : e ∈ specClassifyRow hash m0 row n) : e.row = n := by
  unfold specClassifyRow at h
  split at h
  · simp only [List.mem_singleton] at h
    rw [h]
  · split at h
    · simp only [List.mem_singleton] at h
      rw [h]
    · split at h
      · simp only [List.mem_singleton] at h
        rw [h]
      · simp at h

theorem specScan_mem (hash : List JsVal → List Char) (m0 : List (Nat × List Char))
    (rows : List (List JsVal)) (idx : Nat) (e : ChangeEntry)
    (h : e ∈ specScan hash m0 rows idx) :
    ∃ j row, rows[j]? = some row ∧ e ∈ specClassifyRow hash m0 row (idx + j + 2) := by
  induction rows generalizing idx with
  | nil => simp [specScan] at h
  | cons row rest ih =>
    rw [show specScan hash m0 (row :: rest) idx
        = specClassifyRow hash m0 row (idx + 2) ++ specScan hash m0 rest (idx + 1)
        from rfl] at h
    rcases List.mem_append.mp h with h1 | h2
    · exact ⟨0, row, by simp, h1⟩
    · obtain ⟨j, r, hj, hmem⟩ := ih (idx + 1) h2
      refine ⟨j + 1, r, by simpa using hj, ?_⟩
      have he : idx + 1 + j + 2 = idx + (j + 1) + 2 := by omega
      rwa [he] at hmem

end SheetsToHubSpotSync

namespace SheetsToHubSpotSync

/-- A concrete row-hash for exercising the change detector: the first cell's
string contents. -/
def hashC3 : List JsVal → List Char := fun r =>
  match r with
  | vstr s :: _ => s
  | _ => []

/-- A stored fingerprint with an empty hash (as `updateSyncState` writes on
every create) is classified `new`, not `modified`, even though a stored entry
exists for the row and its hash differs from the current one: the code's
`if (!existingHash)` is a falsiness test, not an entry-presence test. -/
theorem c3_counterexample :
    detectChanges hashC3 [(2, [])] [[vstr (chars "a")]] = [ChangeEntry.mk 2 "new"]
    ∧ hashC3 [vstr (chars "a")] ≠ []
    ∧ ChangeEntry.mk 2 "modified" ∉ detectChanges hashC3 [(2, [])] [[vstr (chars "a")]] :=
  ⟨rfl, by decide, by decide⟩

/-- C3 (amended): the Change Detector classifies each current row (row
number = index + 2) as `new` when the stored fingerprint map has no entry for
its row number OR the stored hash is empty (the falsy `!existingHash` test),
as `modified` when a non-empty stored hash differs from the current hash,
removes visited row numbers from the working copy, and reports every stored
row number that survives the scan as `deleted`; a current row whose non-empty
stored hash equals its current hash contributes no entry at all.  Stated as:
the source-derived `detectChanges` equals the spec-side `detectChangesSpec`,
and an up-to-date row's number appears in no change entry. -/
theorem c3_change_detector (hash : List JsVal → List Char)
    (syncStates : List (Nat × List Char)) (rows : List (List JsVal)) :
    detectChanges hash syncStates rows = detectChangesSpec hash syncStates rows
    ∧ ∀ i row, rows[i]? = some row →
        mapGet (buildStateMap syncStates) (i + 2) = some (hash row) →
        hash row ≠ [] →
        ∀ t, ChangeEntry.mk (i + 2) t ∉ detectChanges hash syncStates rows := by
  have heq : detectChanges hash syncStates rows
      = detectChangesSpec hash syncStates rows := by
    show (scanRows hash rows 0 (buildStateMap syncStates)).1
        ++ ((scanRows hash rows 0 (buildStateMap syncStates)).2).map
            (fun p => ⟨p.1, "deleted"⟩)
      = specScan hash (buildStateMap syncStates) rows 0
        ++ ((buildStateMap syncStates).filter
            (fun p => decide (p.1 < 2 ∨ 2 + rows.length ≤ p.1))).map
            (fun p => ⟨p.1, "deleted"⟩)
    rw [scanRows_fst, scanRows_snd]
  refine ⟨heq, ?_⟩
  intro i row hrow hget hne t hmem
  rw [heq] at hmem
  simp only [detectChangesSpec] at hmem
  rcases List.mem_append.mp hmem with h1 | h2
  · obtain ⟨j, r, hj, hcl⟩ := specScan_mem hash _ rows 0 _ h1
    have hr := specClassifyRow_row hash _ r (0 + j + 2) _ hcl
    have hji : j = i := by
      have h2 : i + 2 = 0 + j + 2 := hr
      omega
    subst hji
    rw [hrow] at hj
    injection hj with hj
    subst hj
    rw [show (0 : Nat) + j + 2 = j + 2 from by omega] at hcl
    unfold specClassifyRow at hcl
    split at hcl
    · next heq2 =>
        rw [hget] at heq2
        simp at heq2
    · next hsh heq2 =>
        rw [hget] at heq2
        injection heq2 with heq2
        subst heq2
        rw [if_neg hne] at hcl
        rw [if_neg (by simp)] at hcl
        simp at hcl
  · simp only [List.mem_map] at h2
    obtain ⟨p, hp, hpe⟩ := h2
    have hp1 : p.1 = i + 2 := congrArg ChangeEntry.row hpe
    have hpred := List.of_mem_filter hp
    simp only [decide_eq_true_eq] at hpred
    have hlen : i < rows.length := by
      by_contra hc
      push_neg at hc
      rw [List.getElem?_eq_none (by omega)] at hrow
      cases hrow
    omega

theorem c3_change_detector_witness :
    detectChanges hashC3 [(2, chars "a"), (3, chars "x"), (8, chars "z")]
        [[vstr (chars "a")], [vstr (chars "b")], [vstr (chars "c")]]
      = detectChangesSpec hashC3 [(2, chars "a"), (3, chars "x"), (8, chars "z")]
        [[vstr (chars "a")], [vstr (chars "b")], [vstr (chars "c")]]
    ∧ ChangeEntry.mk 2 "modified"
        ∉ detectChanges hashC3 [(2, chars "a"), (3, chars "x"), (8, chars "z")]
            [[vstr (chars "a")], [vstr (chars "b")], [vstr (chars "c")]] := by
  have h := c3_change_detector hashC3
    [(2, chars "a"), (3, chars "x"), (8, chars "z")]
    [[vstr (chars "a")], [vstr (chars "b")], [vstr (chars "c")]]
  exact ⟨h.1, h.2 0 [vstr (chars "a")] rfl rfl (by decide) "modified"⟩

end SheetsToHubSpotSync

namespace HubSpotToSheetsSync

/-- The cell updates `updateSheet` queues, written from the spec's words: one
targeted update per incoming row whose (truthy) key value matches an existing
row, at that row's number. -/
def updatesSpec (sheetName : List Char) (ex : List (List Char × Nat)) (k : Nat)
    (rows : List (List JsVal)) : List (List Char × List (List JsVal)) :=
  rows.filterMap (fun row =>
    let kv := row.getD (k + 1) vundef
    if truthy kv then
      (mapGetStr ex (jsToChars kv)).map (fun n => (rangeA sheetName n, [row]))
    else none)

/-- The appends `updateSheet` queues: one per incoming row whose key value is
truthy but matches no existing row.  (A row with a falsy key value is neither
updated nor appended: it is counted as skipped.) -/
def appendsSpec (ex : List (List Char × Nat)) (k : Nat)
    (rows : List (List JsVal)) : List (List JsVal) :=
  rows.filter (fun row =>
    let kv := row.getD (k + 1) vundef
    truthy kv && (mapGetStr ex (jsToChars kv)).isNone)

/-- The rows `updateSheet` skips: those whose key value is falsy. -/
def skippedP (k : Nat) (row : List JsVal) : Bool :=
  !truthy (row.getD (k + 1) vundef)

theorem matchRows_cons_skip (sheetName : List Char) (ex : List (List Char × Nat))
    (k : Nat) (row : List JsVal) (rest : List (List JsVal)) (out : UpdateOutcome)
    (h : truthy (row.getD (k + 1) vundef) = false) :
    matchRows sheetName ex (row :: rest) k out
      = matchRows sheetName ex rest k { out with skipped := out.skipped + 1 } := by
  show (if truthy (row.getD (k + 1) vundef) = false then _ else _) = _
  rw [if_pos h]

theorem matchRows_cons_update (sheetName : List Char) (ex : List (List Char × Nat))
    (k : Nat) (row : List JsVal) (rest : List (List JsVal)) (out : UpdateOutcome)
    (n : Nat) (ht : truthy (row.getD (k + 1) vundef) = true)
    (hg : mapGetStr ex (jsToChars (row.getD (k + 1) vundef)) = some n) :
    matchRows sheetName ex (row :: rest) k out
      = matchRows sheetName ex rest k
          { out with
            updated := out.updated + 1,
            updates := out.updates ++ [(rangeA sheetName n, [row])] } := by
  show (if truthy (row.getD (k + 1) vundef) = false then _ else _) = _
  rw [if_neg (by rw [ht]; simp), hg]

theorem matchRows_cons_append (sheetName : List Char) (ex : List (List Char × Nat))
    (k : Nat) (row : List JsVal) (rest : List (List JsVal)) (out : UpdateOutcome)
    (ht : truthy (row.getD (k + 1) vundef) = true)
    (hg : mapGetStr ex (jsToChars (row.getD (k + 1) vundef)) = none) :
    matchRows sheetName ex (row :: rest) k out
      = matchRows sheetName ex rest k
          { out with
            created := out.created + 1,
            appends := out.appends ++ [row] } := by
  show (if truthy (row.getD (k + 1) vundef) = false then _ else _) = _
  rw [if_neg (by rw [ht]; simp), hg]

theorem matchRows_spec (sheetName : List Char) (ex : List (List Char × Nat))
    (k : Nat) (rows : List (List JsVal)) (out : UpdateOutcome) :
    matchRows sheetName ex rows k out =
      ⟨out.updated + (updatesSpec sheetName ex k rows).length,
       out.created + (appendsSpec ex k rows).length,
       out.skipped + rows.countP (skippedP k),
       out.updates ++ updatesSpec sheetName ex k rows,
       out.appends ++ appendsSpec ex k rows⟩ := by
  induction rows generalizing out with
  | nil =>
    simp [matchRows, updatesSpec, appendsSpec]
  | cons row rest ih =>
    by_cases ht : truthy (row.getD (k + 1) vundef) = true
    · cases hg : mapGetStr ex (jsToChars (row.getD (k + 1) vundef)) with
      | some n =>
        have ht2 : truthy (row[k + 1]?.getD vundef) = true := by simpa using ht
        have hg2 : mapGetStr ex (jsToChars (row[k + 1]?.getD vundef)) = some n := by simpa using hg
        rw [matchRows_cons_update sheetName ex k row rest out n ht hg, ih]
        simp [updatesSpec, appendsSpec, skippedP, ht2, hg2,
          UpdateOutcome.mk.injEq, List.append_assoc]
        omega
      | none =>
        have ht2 : truthy (row[k + 1]?.getD vundef) = true := by simpa using ht
        have hg2 : mapGetStr ex (jsToChars (row[k + 1]?.getD vundef)) = none := by simpa using hg
        rw [matchRows_cons_append sheetName ex k row rest out ht hg, ih]
        simp [updatesSpec, appendsSpec, skippedP, ht2, hg2,
          UpdateOutcome.mk.injEq, List.append_assoc]
        omega
    · have ht2 : truthy (row.getD (k + 1) vundef) = false := by
        cases h2 : truthy (row.getD (k + 1) vundef)
        · rfl
        · exact absurd h2 ht
      have ht3 : truthy (row[k + 1]?.getD vundef) = false := by simpa using ht2
      rw [matchRows_cons_skip sheetName ex k row rest out ht2, ih]
      simp [updatesSpec, appendsSpec, skippedP, ht3,
        UpdateOutcome.mk.injEq, List.append_assoc]
      omega

/-- A transformed row whose key-column value is falsy (here the empty string
produced by `value || \'\'`) is neither queued as an update nor as an append:
it is counted as skipped.  This refutes the unqualified reading that every
non-matching row is appended. -/
theorem c4_counterexample :
    updateSheet (chars "Sheet1") ⟨[chars "email"], []⟩
        [[vstr (chars "id1"), vstr []]] (chars "email")
      = .ok ⟨0, 0, 1, [], []⟩ := by
  rfl

/-- C4: CRM→Sheet `update` mode.  General part (amended): each transformed
row with a truthy key value matching an existing row is queued as a targeted
cell update at that row's number, each one with a truthy but unmatched key
value is queued as an append, and each one with a falsy key value is skipped;
the returned counters are the lengths of those three groups.  Concrete part:
with the key column mapping a@x.com to sheet row 3 and b@x.com to row 4 and
incoming rows for a@x.com and c@x.com, the result is exactly one queued cell
update with range `\'Sheet1\'!A3`, one append, updated=1, created=1,
skipped=0. -/
theorem c4_update_mode :
    (∀ (sheetName : List Char) (existingData : SheetData)
        (newData : List (List JsVal)) (keyColumn : List Char) (k : Nat),
      idxOf existingData.headers keyColumn = some k →
      updateSheet sheetName existingData newData keyColumn
        = .ok ⟨(updatesSpec sheetName (buildKeyMap existingData.rows k) k newData).length,
               (appendsSpec (buildKeyMap existingData.rows k) k newData).length,
               newData.countP (skippedP k),
               updatesSpec sheetName (buildKeyMap existingData.rows k) k newData,
               appendsSpec (buildKeyMap existingData.rows k) k newData⟩)
    ∧ updateSheet (chars "Sheet1")
        ⟨[chars "email"],
         [[vstr []], [vstr (chars "a@x.com")], [vstr (chars "b@x.com")]]⟩
        [[vstr (chars "id1"), vstr (chars "a@x.com")],
         [vstr (chars "id2"), vstr (chars "c@x.com")]]
        (chars "email")
      = .ok ⟨1, 1, 0,
             [(chars "\'Sheet1\'!A3", [[vstr (chars "id1"), vstr (chars "a@x.com")]])],
             [[vstr (chars "id2"), vstr (chars "c@x.com")]]⟩ := by
  constructor
  · intro sheetName existingData newData keyColumn k hk
    unfold updateSheet
    rw [hk]
    show Except.ok (matchRows sheetName (buildKeyMap existingData.rows k) newData k
        ⟨0, 0, 0, [], []⟩) = _
    rw [matchRows_spec]
    simp
  · rfl

theorem c4_update_mode_witness :
    idxOf ([chars "email"] : List (List Char)) (chars "email") = some 0 ∧
    updateSheet (chars "Sheet1") ⟨[chars "email"], [[vstr (chars "a@x.com")]]⟩
        [[vstr (chars "id1"), vstr (chars "a@x.com")]] (chars "email")
      = .ok ⟨(updatesSpec (chars "Sheet1")
                (buildKeyMap [[vstr (chars "a@x.com")]] 0) 0
                [[vstr (chars "id1"), vstr (chars "a@x.com")]]).length,
             (appendsSpec (buildKeyMap [[vstr (chars "a@x.com")]] 0) 0
                [[vstr (chars "id1"), vstr (chars "a@x.com")]]).length,
             [[vstr (chars "id1"), vstr (chars "a@x.com")]].countP (skippedP 0),
             updatesSpec (chars "Sheet1")
                (buildKeyMap [[vstr (chars "a@x.com")]] 0) 0
                [[vstr (chars "id1"), vstr (chars "a@x.com")]],
             appendsSpec (buildKeyMap [[vstr (chars "a@x.com")]] 0) 0
                [[vstr (chars "id1"), vstr (chars "a@x.com")]]⟩ :=
  ⟨rfl, (c4_update_mode.1 (chars "Sheet1")
    ⟨[chars "email"], [[vstr (chars "a@x.com")]]⟩
    [[vstr (chars "id1"), vstr (chars "a@x.com")]] (chars "email") 0 rfl)⟩

end HubSpotToSheetsSync

namespace SheetsToHubSpotSync

/-- A strict-mode (`skipInvalid = false`) Sheet→CRM configuration with a
required `email` mapping and an optional `name` mapping. -/
def cfgC1 : SyncConfig where
  hubspotEntityType := "contacts"
  fieldMappings := [
    ⟨chars "email", 0, chars "email", true, none⟩,
    ⟨chars "name", 1, chars "name", false, none⟩]
  identifierColumn := chars "email"
  updateExisting := true
  createNew := true
  skipInvalid := false

/-- A run whose sheet holds an invalid data row (row 2: the required email
cell is empty, the row is non-empty) followed by a valid one (row 3); every
external call succeeds and every search finds nothing. -/
def envC1 : Env where
  readSheet := .ok ⟨[chars "email", chars "name"],
    [[vstr [], vstr (chars "Bob")],
     [vstr (chars "c@x.com"), vstr (chars "Carol")]]⟩
  search := fun _ _ _ => .ok none
  create := fun _ _ => .ok ⟨chars "999", []⟩
  update := fun _ _ _ => .ok ⟨chars "999", []⟩

/-- C1: with `skipInvalid = false` a missing required field does NOT abort
the run.  The `throw` for the invalid row 2 is raised inside the per-row
`try` and caught by the row-level catch, which records a row error and
continues: `executeSync` returns normally (`.ok`, no raise), the later row 3
is still processed (its search and create calls appear in the trace), and the
job ends `FAILED` only because the error count is non-zero. -/
theorem c1_strict_mode_does_not_abort :
    executeSync envC1 cfgC1 =
      ⟨.ok { success := false, rowsProcessed := 1, recordsCreated := 1,
             recordsUpdated := 0, recordsSkipped := 0,
             errors := [(2, [vstr [], vstr (chars "Bob")],
               chars "Row 2: Missing required fields: email")] },
       some "FAILED",
       [CrmOp.search "contacts" "email" (vstr (chars "c@x.com")),
        CrmOp.create "contacts" [(chars "email", vstr (chars "c@x.com")),
          (chars "name", vstr (chars "Carol"))]]⟩ := by
  rfl

end SheetsToHubSpotSync

theorem failPath_error (env : SheetsToHubSpotSync.Env) (e : List Char)
    (ops : List CrmOp) (r : SheetsToHubSpotSync.SheetsSyncResult) :
    (SheetsToHubSpotSync.failPath env e ops).result ≠ .ok r := by
  unfold SheetsToHubSpotSync.failPath
  split <;> simp

theorem tryBody_success (env : HubSpotToSheetsSync.Env)
    (config : HubSpotToSheetsSync.SyncConfig) (r : HubSpotToSheetsSync.SyncResult)
    (h : HubSpotToSheetsSync.tryBody env config = .ok r) : r.success = true := by
  unfold HubSpotToSheetsSync.tryBody at h
  split at h
  · cases h
  · split at h
    · cases h
    · unfold HubSpotToSheetsSync.commitStep at h
      split at h
      · cases h
      · split at h
        · cases h
        · split at h
          · cases h
          · injection h with h
            subst h
            rfl

/-- The CRM→Sheet run whose post-commit fingerprint write fails: one record
is fetched and appended and the job row updated, then the fingerprint upsert
for its transformed row throws. -/
def envC8 : HubSpotToSheetsSync.Env where
  fetchAll := .ok [⟨chars "101", []⟩]
  readSheet := .ok ⟨[], []⟩
  upsertState := .error (chars "state write failed")

/-- An append-mode CRM→Sheet configuration with no field mappings. -/
def cfgC8 : HubSpotToSheetsSync.SyncConfig where
  hubspotEntityType := "contacts"
  fieldMappings := []
  syncMode := "append"

/-- When a CRM→Sheet run fails after its mode commit (here: the fingerprint
upsert throws after the append and the job update succeeded), the returned
result has `success = true` together with a non-empty error list: the claimed
iff does not hold for this engine. -/
theorem c8_counterexample :
    HubSpotToSheetsSync.executeSync envC8 cfgC8 =
      ⟨.ok { success := true, recordsProcessed := 1, recordsCreated := 1,
             recordsUpdated := 0, recordsSkipped := 0,
             errors := [chars "state write failed"] },
       some "FAILED"⟩ := by
  rfl

/-- C8 (amended): in the Sheet→CRM engine a returned result's `success` is
true iff its error list is empty (unconditionally); in the CRM→Sheet engine
only one direction holds — an empty error list forces `success = true` (so
`success = false` with no errors never occurs), while `success = true` with a
non-empty error list does occur when a failure strikes after the mode commit
(see the counterexample). -/
theorem c8_success_iff_errors :
    (∀ (env : SheetsToHubSpotSync.Env) (config : SheetsToHubSpotSync.SyncConfig)
        (r : SheetsToHubSpotSync.SheetsSyncResult),
      (SheetsToHubSpotSync.executeSync env config).result = .ok r →
      (r.success = true ↔ r.errors = []))
    ∧ (∀ (env : HubSpotToSheetsSync.Env) (config : HubSpotToSheetsSync.SyncConfig)
        (r : HubSpotToSheetsSync.SyncResult),
      (HubSpotToSheetsSync.executeSync env config).result = .ok r →
      (r.errors = [] → r.success = true)) := by
  constructor
  · intro env config r h
    unfold SheetsToHubSpotSync.executeSync at h
    split at h
    · cases h
    · split at h
      · exact absurd h (failPath_error _ _ _ _)
      · split at h
        · exact absurd h (failPath_error _ _ _ _)
        · split at h
          · exact absurd h (failPath_error _ _ _ _)
          · split at h
            · exact absurd h (failPath_error _ _ _ _)
            · split at h
              · exact absurd h (failPath_error _ _ _ _)
              · injection h with h
                subst h
                simp [List.length_eq_zero]
  · intro env config r h hemp
    unfold HubSpotToSheetsSync.executeSync at h
    split at h
    · cases h
    · split at h
      · next r2 htb =>
          injection h with h
          subst h
          exact tryBody_success env config _ htb
      · next e r2 htb =>
          unfold HubSpotToSheetsSync.catchPath at h
          split at h
          · cases h
          · injection h with h
            subst h
            simp at hemp

/-- A trivially succeeding Sheet→CRM run over an empty sheet. -/
def envW8 : SheetsToHubSpotSync.Env where
  readSheet := .ok ⟨[chars "email"], []⟩
  search := fun _ _ _ => .ok none
  create := fun _ _ => .ok ⟨[], []⟩
  update := fun _ _ _ => .ok ⟨[], []⟩

/-- A minimal Sheet→CRM configuration over the one-column sheet. -/
def cfgW8 : SheetsToHubSpotSync.SyncConfig where
  hubspotEntityType := "contacts"
  fieldMappings := [⟨chars "email", 0, chars "email", false, none⟩]
  identifierColumn := chars "email"
  updateExisting := true
  createNew := true
  skipInvalid := true

/-- A trivially succeeding CRM→Sheet run with no records. -/
def envW8b : HubSpotToSheetsSync.Env where
  fetchAll := .ok []
  readSheet := .ok ⟨[], []⟩

theorem c8_success_iff_errors_witness :
    ((SheetsToHubSpotSync.SheetsSyncResult.mk true 0 0 0 0 []).success = true
      ↔ (SheetsToHubSpotSync.SheetsSyncResult.mk true 0 0 0 0 []).errors = [])
    ∧ ((HubSpotToSheetsSync.SyncResult.mk true 0 0 0 0 []).errors = []
      → (HubSpotToSheetsSync.SyncResult.mk true 0 0 0 0 []).success = true) :=
  ⟨c8_success_iff_errors.1 envW8 cfgW8 (SheetsToHubSpotSync.SheetsSyncResult.mk true 0 0 0 0 []) rfl,
   c8_success_iff_errors.2 envW8b cfgC8 (HubSpotToSheetsSync.SyncResult.mk true 0 0 0 0 []) rfl⟩

theorem isDigitC_not_ws (c : Char) (h : isDigitC c = true) : isWsChar c = false := by
  by_contra hw
  rw [Bool.not_eq_false] at hw
  simp only [isWsChar, decide_eq_true_eq] at hw
  rcases hw with h1|h1|h1|h1|h1|h1 <;> (subst h1; exact absurd h (by decide))

theorem digit_ne (c x : Char) (h : isDigitC c = true) (hx : isDigitC x = false) :
    c ≠ x := fun he => by subst he; rw [h] at hx; cases hx

theorem takeWhile_all (p : Char → Bool) (l : List Char) (h : ∀ c ∈ l, p c = true) :
    l.takeWhile p = l := by
  induction l with
  | nil => rfl
  | cons a t ih =>
    rw [List.takeWhile_cons_of_pos (h a (by simp)), ih (fun c hc => h c (by simp [hc]))]

theorem readSign_not_sign (c : Char) (rest : List Char)
    (h1 : c ≠ '-') (h2 : c ≠ '+') : readSign (c :: rest) = (false, c :: rest) := by
  unfold readSign
  split
  · next r heq =>
      rw [List.cons.injEq] at heq
      exact absurd heq.1 h1
  · next r heq =>
      rw [List.cons.injEq] at heq
      exact absurd heq.1 h2
  · rfl

theorem readSign_digit (c : Char) (rest : List Char) (hc : isDigitC c = true) :
    readSign (c :: rest) = (false, c :: rest) :=
  readSign_not_sign c rest (digit_ne c '-' hc (by decide)) (digit_ne c '+' hc (by decide))

theorem jsParseInt_digits (ds : List Char) (hne : ds ≠ [])
    (hall : ∀ c ∈ ds, isDigitC c = true) : jsParseInt ds = vnum (digitsVal ds) := by
  cases ds with
  | nil => exact absurd rfl hne
  | cons c rest =>
    have hc := hall c (by simp)
    simp only [jsParseInt]
    rw [List.dropWhile_cons_of_neg (by simp [isDigitC_not_ws c hc])]
    rw [readSign_digit c rest hc]
    rw [takeWhile_all _ _ hall]
    rw [if_neg (by simp)]
    rw [if_neg (by simp)]
    rw [one_mul]

theorem jsParseFloat_digits (ds : List Char) (hne : ds ≠ [])
    (hall : ∀ c ∈ ds, isDigitC c = true) : jsParseFloat ds = vnum (digitsVal ds) := by
  cases ds with
  | nil => exact absurd rfl hne
  | cons c rest =>
    have hc := hall c (by simp)
    simp only [jsParseFloat]
    rw [List.dropWhile_cons_of_neg (by simp [isDigitC_not_ws c hc])]
    rw [readSign_digit c rest hc]
    rw [takeWhile_all _ _ hall]
    rw [List.drop_length]
    rw [if_neg (by simp)]
    show vnum (1 * ((digitsVal (c :: rest) : ℚ) + (digitsVal [] : ℚ) / 10 ^ (0 : Nat))) = _
    norm_num [digitsVal, Nat.ofDigits]

namespace DataTransformer

theorem c2rt_email (s : List Char) (cfg : TransformConfig)
    (h : jsTrim (jsToLower s) = s) :
    applyReverseTransformation (applyTransformation (vstr s) "EMAIL_NORMALIZE" cfg)
      "EMAIL_NORMALIZE" cfg = vstr s := by
  show vstr (jsTrim (jsToLower (jsToChars
      (vstr (jsTrim (jsToLower (jsToChars (vstr s)))))))) = vstr s
  rw [show jsToChars (vstr s) = s from rfl, h,
    show jsToChars (vstr s) = s from rfl, h]

theorem c2rt_custom (v : JsVal) (cfg : TransformConfig)
    (h : (∃ g g2, cfg.customFn = some g ∧ cfg.customRevFn = some g2 ∧ g2 (g v) = v) ∨
         (cfg.customFn = none ∧ cfg.customRevFn = none)) :
    applyReverseTransformation (applyTransformation v "CUSTOM_FUNCTION" cfg)
      "CUSTOM_FUNCTION" cfg = v := by
  show applyCustomFunction (applyCustomFunction v cfg.customFn) cfg.customRevFn = v
  rcases h with ⟨g, g2, hg, hh, hinv⟩ | ⟨hg, hh⟩
  · rw [hg, hh]
    exact hinv
  · rw [hg, hh]
    rfl

theorem c2rt_enum (cfg : TransformConfig) (m rm : List (List Char × List Char))
    (s tv : List Char) (hm : cfg.mapping = some m) (hrm : cfg.reverseMapping = some rm)
    (hl : lookupStr m s = some tv) (htv : tv ≠ [])
    (hr : lookupStr rm tv = some s) (hs : s ≠ []) :
    applyReverseTransformation (applyTransformation (vstr s) "ENUM_TO_TEXT" cfg)
      "ENUM_TO_TEXT" cfg = vstr s := by
  show textToEnum (enumToText (vstr s) cfg.mapping) cfg.reverseMapping = vstr s
  rw [hm, hrm]
  unfold enumToText
  rw [show jsToChars (vstr s) = s from rfl]
  simp only [hl, htv, ne_eq, not_false_iff, if_true]
  unfold textToEnum
  rw [show jsToChars (vstr tv) = tv from rfl]
  simp only [hr, hs, ne_eq, not_false_iff, if_true]

theorem c2rt_bool (b : Bool) (cfg : TransformConfig)
    (h : (cfg.trueValue = none ∧ cfg.falseValue = none) ∨
         (∃ tv fv, cfg.trueValue = some tv ∧ cfg.falseValue = some fv ∧
           tv ≠ [] ∧ fv ≠ [] ∧ fv ≠ tv)) :
    applyReverseTransformation (applyTransformation (vbool b) "BOOLEAN_TO_TEXT" cfg)
      "BOOLEAN_TO_TEXT" cfg = vbool b := by
  show textToBoolean (booleanToText (vbool b) cfg) cfg = vbool b
  rcases h with ⟨h1, h2⟩ | ⟨tv, fv, h1, h2, htv, hfv, hne⟩
  · unfold booleanToText textToBoolean
    rw [h1, h2]
    cases b
    · rfl
    · rfl
  · cases b
    · show textToBoolean (booleanToText (vbool false) cfg) cfg = vbool false
      unfold booleanToText
      rw [h1, h2]
      show textToBoolean
          (if tv ≠ [] ∧ fv ≠ [] then vstr fv else vstr (chars "No")) cfg = vbool false
      rw [if_pos ⟨htv, hfv⟩]
      unfold textToBoolean
      rw [h1]
      show (if tv ≠ [] then vbool (jsStrictEq (vstr fv) (vstr tv))
          else vbool (decide (jsToLower (jsToChars (vstr fv)) = chars "yes" ∨
            jsToLower (jsToChars (vstr fv)) = chars "true" ∨
            jsToLower (jsToChars (vstr fv)) = chars "1"))) = vbool false
      rw [if_pos htv]
      show vbool (decide (fv = tv)) = vbool false
      simp [hne]
    · show textToBoolean (booleanToText (vbool true) cfg) cfg = vbool true
      unfold booleanToText
      rw [h1, h2]
      show textToBoolean
          (if tv ≠ [] ∧ fv ≠ [] then vstr tv else vstr (chars "Yes")) cfg = vbool true
      rw [if_pos ⟨htv, hfv⟩]
      unfold textToBoolean
      rw [h1]
      show (if tv ≠ [] then vbool (jsStrictEq (vstr tv) (vstr tv))
          else vbool (decide (jsToLower (jsToChars (vstr tv)) = chars "yes" ∨
            jsToLower (jsToChars (vstr tv)) = chars "true" ∨
            jsToLower (jsToChars (vstr tv)) = chars "1"))) = vbool true
      rw [if_pos htv]
      show vbool (decide (tv = tv)) = vbool true
      simp

theorem arrElemStrs_map_vstr (xs : List (List Char)) :
    arrElemStrs (xs.map vstr) = xs := by
  induction xs with
  | nil => rfl
  | cons a t ih =>
    show jsToChars (vstr a) :: arrElemStrs (t.map vstr) = a :: t
    rw [show jsToChars (vstr a) = a from rfl, ih]

theorem c2rt_array (xs : List (List Char)) (cfg : TransformConfig)
    (hsep : cfg.separator = none) (hne : xs ≠ [])
    (hc : ∀ p ∈ xs, ∀ c ∈ p, c ≠ ',') :
    applyReverseTransformation (applyTransformation (varr (xs.map vstr)) "ARRAY_TO_STRING" cfg)
      "ARRAY_TO_STRING" cfg = varr (xs.map vstr) := by
  show varr ((jsSplit (strOr cfg.separator (chars ", "))
      (jsToChars (vstr (joinSep (strOr cfg.separator (chars ", "))
        (arrElemStrs (xs.map vstr)))))).map vstr) = varr (xs.map vstr)
  rw [hsep]
  rw [show strOr none (chars ", ") = chars ", " from rfl]
  rw [show ∀ t, jsToChars (vstr t) = t from fun t => rfl]
  rw [arrElemStrs_map_vstr]
  show varr ((splitSep (chars ", ") (joinSep (chars ", ") xs)).map vstr) = varr (xs.map vstr)
  rw [splitSep_joinSep (chars ", ") xs ',' [' '] rfl hne hc]

theorem c2rt_phone (s : List Char) (cfg : TransformConfig)
    (h : stripNonDigits s = s) :
    applyReverseTransformation (applyTransformation (vstr s) "PHONE_FORMAT" cfg)
      "PHONE_FORMAT" cfg = vstr s := by
  have hall : ∀ c ∈ s, isDigitC c = true := by
    intro c hcs
    have := List.filter_eq_self.mp h
    exact this c hcs
  show parsePhone (formatPhone (vstr s) (strOr cfg.format (chars "US"))) = vstr s
  unfold formatPhone
  rw [show jsToChars (vstr s) = s from rfl, h]
  show parsePhone (if strOr cfg.format (chars "US") = chars "US" ∧ List.length s = 10 then
      vstr ('(' :: (List.take 3 s ++ ')' :: ' ' ::
        (List.take 3 (List.drop 3 s) ++ '-' :: List.drop 6 s)))
    else vstr s) = vstr s
  split
  · next hcond =>
      unfold parsePhone
      rw [show ∀ t, jsToChars (vstr t) = t from fun t => rfl]
      unfold stripNonDigits
      rw [List.filter_cons_of_neg (by decide)]
      rw [List.filter_append]
      rw [List.filter_cons_of_neg (by decide), List.filter_cons_of_neg (by decide)]
      rw [List.filter_append]
      rw [List.filter_cons_of_neg (by decide)]
      rw [show List.filter isDigitC (s.take 3) = s.take 3 from
        List.filter_eq_self.mpr (fun c hc => hall c (List.mem_of_mem_take hc))]
      rw [show List.filter isDigitC ((s.drop 3).take 3) = (s.drop 3).take 3 from
        List.filter_eq_self.mpr (fun c hc =>
          hall c (List.mem_of_mem_drop (List.mem_of_mem_take hc)))]
      rw [show List.filter isDigitC (s.drop 6) = s.drop 6 from
        List.filter_eq_self.mpr (fun c hc => hall c (List.mem_of_mem_drop hc))]
      rw [show (s.drop 3).take 3 ++ s.drop 6 = s.drop 3 from by
        rw [show s.drop 6 = (s.drop 3).drop 3 from by rw [List.drop_drop]]
        exact List.take_append_drop 3 (s.drop 3)]
      rw [List.take_append_drop]
  · unfold parsePhone
    rw [show ∀ t, jsToChars (vstr t) = t from fun t => rfl, h]

end DataTransformer

theorem jsTrunc_int (t : Int) : jsTrunc ((t : ℚ)) = t := by
  unfold jsTrunc
  split
  · rw [show -(t : ℚ) = ((-t : Int) : ℚ) from by push_cast; ring, Int.floor_intCast]
    omega
  · rw [Int.floor_intCast]

theorem padZeros_ne_nil (w : Nat) (ds : List Char) (h : ds ≠ []) :
    padZeros w ds ≠ [] := by
  unfold padZeros
  simp [h]

theorem padZeros_all_digits (w : Nat) (ds : List Char)
    (h : ∀ c ∈ ds, isDigitC c = true) : ∀ c ∈ padZeros w ds, isDigitC c = true := by
  intro c hc
  rcases List.mem_append.mp hc with h1 | h1
  · rw [List.eq_of_mem_replicate h1]
    decide
  · exact h c h1

theorem jsParseInt_padNat (w n : Nat) :
    jsParseInt (padZeros w (natToChars n)) = vnum n := by
  rw [jsParseInt_digits _ (padZeros_ne_nil w _ (natToChars_ne_nil n))
    (padZeros_all_digits w _ (natToChars_all_digits n))]
  rw [digitsVal_padZeros, digitsVal_natToChars]

theorem intToChars_nonneg (i : Int) (h : 0 ≤ i) :
    intToChars i = natToChars i.natAbs := by
  unfold intToChars
  rw [if_neg (by omega)]

theorem cumDaysBeforeMonth_bounds (mn ily : Int) (h : 0 ≤ ily ∧ ily ≤ 1) :
    0 ≤ cumDaysBeforeMonth mn ily ∧ cumDaysBeforeMonth mn ily ≤ 335 := by
  unfold cumDaysBeforeMonth
  split_ifs <;> omega

theorem makeDay_bounds (y m d : Int) (hy : 100 ≤ y ∧ y ≤ 9999)
    (hm : 0 ≤ m ∧ m ≤ 11) (hd : 1 ≤ d ∧ d ≤ 31) :
    -700000 ≤ makeDay y m d ∧ makeDay y m d ≤ 2950400 := by
  unfold makeDay
  have h1 : m / 12 = 0 := by omega
  have h2 : m % 12 = m := by omega
  rw [h1, h2, add_zero]
  show -700000 ≤ dayFromYear y + cumDaysBeforeMonth m (ilyInt y) + d - 1 ∧
    dayFromYear y + cumDaysBeforeMonth m (ilyInt y) + d - 1 ≤ 2950400
  have h3 := cumDaysBeforeMonth_bounds m (ilyInt y) (ilyInt_bounds y)
  have h4 : -690000 ≤ dayFromYear y ∧ dayFromYear y ≤ 2950000 := by
    unfold dayFromYear
    omega
  omega

theorem jsParseInt_nat (n : Nat) : jsParseInt (natToChars n) = vnum n := by
  rw [jsParseInt_digits _ (natToChars_ne_nil n) (natToChars_all_digits n),
    digitsVal_natToChars]

theorem daysInMonth_le_31 (y m : Int) : daysInMonth y m ≤ 31 := by
  unfold daysInMonth
  split_ifs <;> omega

namespace DataTransformer

theorem c2rt_date (cfg : TransformConfig) (y m d : Int) (hfmt : cfg.format = none)
    (hv : validCivil y m d) (hy1 : 100 ≤ y) (hy2 : y ≤ 9999)
    (hnz : makeDay y (m - 1) d ≠ 0) :
    applyReverseTransformation
      (applyTransformation (vnum ((makeDay y (m - 1) d * msPerDay : Int) : ℚ))
        "DATE_FORMAT" cfg) "DATE_FORMAT" cfg
      = vnum ((makeDay y (m - 1) d * msPerDay : Int) : ℚ) := by
  obtain ⟨hm1, hm2, hd1, hd2⟩ := hv
  have hd31 : d ≤ 31 := le_trans hd2 (daysInMonth_le_31 y m)
  have hmb := makeDay_bounds y (m - 1) d ⟨hy1, hy2⟩ ⟨by omega, by omega⟩ ⟨hd1, hd31⟩
  have htr : inTimeRange (makeDay y (m - 1) d * msPerDay) = true := by
    simp only [inTimeRange, msPerDay, decide_eq_true_eq]
    omega
  have hq0 : ((makeDay y (m - 1) d * msPerDay : Int) : ℚ) ≠ 0 := by
    rw [Int.cast_ne_zero]
    simp only [msPerDay]
    intro hc
    rcases mul_eq_zero.mp hc with h | h
    · exact hnz h
    · norm_num at h
  show parseDate (formatDate (vnum ((makeDay y (m - 1) d * msPerDay : Int) : ℚ))
      (strOr cfg.format (chars "MM/DD/YYYY")))
      (strOr cfg.format (chars "MM/DD/YYYY"))
    = vnum ((makeDay y (m - 1) d * msPerDay : Int) : ℚ)
  rw [hfmt]
  rw [show strOr none (chars "MM/DD/YYYY") = chars "MM/DD/YYYY" from rfl]
  have hnew : jsNewDate (vnum ((makeDay y (m - 1) d * msPerDay : Int) : ℚ))
      = some (makeDay y (m - 1) d * msPerDay) := by
    simp only [jsNewDate]
    rw [jsTrunc_int, if_pos htr]
  have hciv : civilFromDay (makeDay y (m - 1) d * msPerDay / msPerDay) = (y, m, d) := by
    rw [Int.mul_ediv_cancel _ (show (msPerDay : Int) ≠ 0 from by norm_num [msPerDay])]
    exact civilFromDay_makeDay y m d ⟨hm1, hm2, hd1, hd2⟩
  have hfwd : formatDate (vnum ((makeDay y (m - 1) d * msPerDay : Int) : ℚ))
      (chars "MM/DD/YYYY")
      = vstr (padZeros 2 (natToChars m.natAbs) ++ '/' ::
          (padZeros 2 (natToChars d.natAbs) ++ '/' :: natToChars y.natAbs)) := by
    unfold formatDate
    rw [if_neg (by simp [truthy, msPerDay]; exact hnz)]
    simp only [hnew, hciv]
    simp only [if_true]
    rw [intToChars_nonneg m (by omega), intToChars_nonneg d (by omega),
      intToChars_nonneg y (by omega)]
  rw [hfwd]
  have hsplit : jsSplit ['/'] (padZeros 2 (natToChars m.natAbs) ++ '/' ::
      (padZeros 2 (natToChars d.natAbs) ++ '/' :: natToChars y.natAbs))
      = [padZeros 2 (natToChars m.natAbs), padZeros 2 (natToChars d.natAbs),
         natToChars y.natAbs] := by
    have hjoin : padZeros 2 (natToChars m.natAbs) ++ '/' ::
        (padZeros 2 (natToChars d.natAbs) ++ '/' :: natToChars y.natAbs)
        = joinSep ['/'] [padZeros 2 (natToChars m.natAbs),
            padZeros 2 (natToChars d.natAbs), natToChars y.natAbs] := by
      show _ = padZeros 2 (natToChars m.natAbs) ++ ['/'] ++
          (padZeros 2 (natToChars d.natAbs) ++ ['/'] ++ natToChars y.natAbs)
      simp
    rw [hjoin]
    show splitSep ['/'] _ = _
    refine splitSep_joinSep ['/'] _ '/' [] rfl (by simp) ?_
    intro p hp c hc
    simp only [List.mem_cons, List.not_mem_nil, or_false] at hp
    have hdig : isDigitC c = true := by
      rcases hp with h | h | h
      · subst h; exact padZeros_all_digits 2 _ (natToChars_all_digits _) c hc
      · subst h; exact padZeros_all_digits 2 _ (natToChars_all_digits _) c hc
      · subst h; exact natToChars_all_digits _ c hc
    exact digit_ne c '/' hdig (by decide)
  unfold parseDate
  rw [if_neg (by simp [truthy])]
  rw [if_pos rfl]
  rw [show jsToChars (vstr (padZeros 2 (natToChars m.natAbs) ++ '/' ::
      (padZeros 2 (natToChars d.natAbs) ++ '/' :: natToChars y.natAbs)))
      = padZeros 2 (natToChars m.natAbs) ++ '/' ::
        (padZeros 2 (natToChars d.natAbs) ++ '/' :: natToChars y.natAbs) from rfl]
  simp only [hsplit]
  rw [jsParseInt_padNat 2 m.natAbs, jsParseInt_padNat 2 d.natAbs, jsParseInt_nat y.natAbs]
  have hyy : ((y.natAbs : Nat) : ℚ) = ((y : Int) : ℚ) := by
    have h0 : (y.natAbs : Int) = y := Int.natAbs_of_nonneg (by omega)
    rw [show ((y.natAbs : Nat) : ℚ) = (((y.natAbs : Nat) : Int) : ℚ) from (Int.cast_natCast _).symm]
    rw [h0]
  have hdd : ((d.natAbs : Nat) : ℚ) = ((d : Int) : ℚ) := by
    have h0 : (d.natAbs : Int) = d := Int.natAbs_of_nonneg (by omega)
    rw [show ((d.natAbs : Nat) : ℚ) = (((d.natAbs : Nat) : Int) : ℚ) from (Int.cast_natCast _).symm]
    rw [h0]
  have hmm : ((m.natAbs : Nat) : ℚ) - 1 = ((m - 1 : Int) : ℚ) := by
    have h0 : (m.natAbs : Int) = m := Int.natAbs_of_nonneg (by omega)
    rw [show ((m.natAbs : Nat) : ℚ) = (((m.natAbs : Nat) : Int) : ℚ) from (Int.cast_natCast _).symm]
    rw [h0]
    push_cast
    ring
  show dateGetTime (jsMakeDateYMD (vnum ((y.natAbs : Nat) : ℚ))
      (jsSub1 (vnum ((m.natAbs : Nat) : ℚ))) (vnum ((d.natAbs : Nat) : ℚ)))
      = vnum ((makeDay y (m - 1) d * msPerDay : Int) : ℚ)
  rw [show jsSub1 (vnum ((m.natAbs : Nat) : ℚ)) = vnum (((m.natAbs : Nat) : ℚ) - 1) from rfl]
  rw [hyy, hdd, hmm]
  simp only [jsMakeDateYMD]
  rw [jsTrunc_int, jsTrunc_int, jsTrunc_int]
  rw [if_neg (show ¬(0 ≤ y ∧ y ≤ 99) by omega)]
  rw [if_pos htr]
  rfl

end DataTransformer

theorem decExp_int (k : Int) : decExp ((k : ℚ)) = some 0 := by
  unfold decExp
  rw [List.range_succ_eq_map]
  rw [List.find?_cons_of_pos _ (by simp [Rat.den_intCast])]

theorem ratToChars_int (k : Int) : ratToChars ((k : ℚ)) = intToChars k := by
  unfold ratToChars
  simp only [decExp_int]
  rw [Rat.num_intCast]

theorem jsParseFloat_neg_digits (ds : List Char) (hne : ds ≠ [])
    (hall : ∀ c ∈ ds, isDigitC c = true) :
    jsParseFloat ('-' :: ds) = vnum (-(digitsVal ds : ℚ)) := by
  simp only [jsParseFloat]
  rw [List.dropWhile_cons_of_neg (by decide)]
  rw [show readSign ('-' :: ds) = (true, ds) from rfl]
  rw [takeWhile_all _ _ hall, List.drop_length]
  rw [if_neg (by simp [hne])]
  show vnum (-1 * ((digitsVal ds : ℚ) + (digitsVal [] : ℚ) / 10 ^ (0 : Nat))) = _
  norm_num [digitsVal, Nat.ofDigits]

theorem stripNonNumeric_digits (ds : List Char)
    (hall : ∀ c ∈ ds, isDigitC c = true) : stripNonNumeric ds = ds :=
  List.filter_eq_self.mpr (fun c hc => by simp [hall c hc])

theorem stripNonNumeric_intToChars (k : Int) :
    stripNonNumeric (intToChars k) = intToChars k := by
  unfold intToChars
  split
  · unfold stripNonNumeric
    rw [List.filter_cons_of_pos (by decide)]
    rw [show List.filter _ (natToChars k.natAbs) = stripNonNumeric (natToChars k.natAbs)
      from rfl]
    rw [stripNonNumeric_digits _ (natToChars_all_digits _)]
  · exact stripNonNumeric_digits _ (natToChars_all_digits _)

namespace DataTransformer

theorem c2rt_number (cfg : TransformConfig) (k : Int)
    (hdec : cfg.decimals = none) (hth : cfg.thousands = false) :
    applyReverseTransformation (applyTransformation (vnum ((k : ℚ))) "NUMBER_FORMAT" cfg)
      "NUMBER_FORMAT" cfg = vnum ((k : ℚ)) := by
  show parseNumber (formatNumber (vnum ((k : ℚ))) cfg) = vnum ((k : ℚ))
  have hfwd : formatNumber (vnum ((k : ℚ))) cfg = vstr (intToChars k) := by
    unfold formatNumber
    show (match cfg.decimals with
      | some dd => vstr (jsToFixed ((k : ℚ)) dd)
      | none => if cfg.thousands then vstr (jsToLocaleString ((k : ℚ)))
          else vstr (ratToChars ((k : ℚ)))) = vstr (intToChars k)
    rw [hdec]
    rw [hth]
    rw [if_neg (by simp)]
    rw [ratToChars_int]
  rw [hfwd]
  show (match jsParseFloat (stripNonNumeric (jsToChars (vstr (intToChars k)))) with
    | vnum q => vnum q
    | _ => vnum 0) = vnum ((k : ℚ))
  rw [show jsToChars (vstr (intToChars k)) = intToChars k from rfl]
  rw [stripNonNumeric_intToChars]
  by_cases hk : k < 0
  · rw [show intToChars k = '-' :: natToChars k.natAbs from by unfold intToChars; rw [if_pos hk]]
    rw [jsParseFloat_neg_digits _ (natToChars_ne_nil _) (natToChars_all_digits _)]
    rw [digitsVal_natToChars]
    show vnum (-(k.natAbs : ℚ)) = vnum ((k : ℚ))
    rw [show ((k.natAbs : Nat) : ℚ) = (((k.natAbs : Nat) : Int) : ℚ) from (Int.cast_natCast _).symm]
    rw [show ((k.natAbs : Int) : ℚ) = ((-k : Int) : ℚ) from by
      rw [show (k.natAbs : Int) = -k from by omega]]
    push_cast
    ring_nf
  · rw [show intToChars k = natToChars k.natAbs from by unfold intToChars; rw [if_neg hk]]
    rw [jsParseFloat_digits _ (natToChars_ne_nil _) (natToChars_all_digits _)]
    rw [digitsVal_natToChars]
    show vnum ((k.natAbs : ℚ)) = vnum ((k : ℚ))
    rw [show ((k.natAbs : Nat) : ℚ) = (((k.natAbs : Nat) : Int) : ℚ) from (Int.cast_natCast _).symm]
    rw [Int.natAbs_of_nonneg (by omega)]

end DataTransformer

theorem takeWhile_all_append (p : Char → Bool) (a : List Char) (x : Char) (xs : List Char)
    (ha : ∀ c ∈ a, p c = true) (hx : p x = false) :
    (a ++ x :: xs).takeWhile p = a := by
  induction a with
  | nil =>
    rw [List.nil_append]
    exact List.takeWhile_cons_of_neg (by simp [hx])
  | cons c t ih =>
    rw [List.cons_append, List.takeWhile_cons_of_pos (ha c (by simp)),
      ih (fun c2 hc => ha c2 (by simp [hc]))]

theorem jsParseFloat_dec (a b : List Char) (hane : a ≠ [])
    (ha : ∀ c ∈ a, isDigitC c = true) (hb : ∀ c ∈ b, isDigitC c = true) :
    jsParseFloat (a ++ '.' :: b)
      = vnum ((digitsVal a : ℚ) + (digitsVal b : ℚ) / 10 ^ b.length) := by
  cases a with
  | nil => exact absurd rfl hane
  | cons c rest =>
    have hc := ha c (by simp)
    have h1 : List.takeWhile isDigitC (c :: (rest ++ '.' :: b)) = c :: rest := by
      rw [List.takeWhile_cons_of_pos hc,
        takeWhile_all_append _ _ _ _ (fun x hx => ha x (by simp [hx])) (by decide)]
    simp only [jsParseFloat, List.cons_append, List.dropWhile_cons,
      isDigitC_not_ws c hc, Bool.false_eq_true, if_false,
      readSign_digit _ _ hc, h1, List.length_cons, List.drop_succ_cons,
      List.drop_left, takeWhile_all _ _ hb, one_mul, List.cons_ne_nil,
      false_and, and_false]

theorem groupRev_strip : ∀ (r : List Char), (∀ c ∈ r, isDigitC c = true) →
    stripNonNumeric (groupRev r) = r
  | [], _ => rfl
  | [a], h => stripNonNumeric_digits [a] h
  | [a, b], h => stripNonNumeric_digits [a, b] h
  | [a, b, c], h => stripNonNumeric_digits [a, b, c] h
  | a :: b :: c :: d :: rest, h => by
    show stripNonNumeric (a :: b :: c :: ',' :: groupRev (d :: rest)) = _
    unfold stripNonNumeric
    rw [List.filter_cons_of_pos (by simp [h a (by simp)]),
      List.filter_cons_of_pos (by simp [h b (by simp)]),
      List.filter_cons_of_pos (by simp [h c (by simp)]),
      List.filter_cons_of_neg (by decide)]
    rw [show List.filter (fun c => decide (isDigitC c = true ∨ c = '.' ∨ c = '-'))
        (groupRev (d :: rest)) = stripNonNumeric (groupRev (d :: rest)) from rfl]
    rw [groupRev_strip (d :: rest) (fun x hx => h x (by simp at hx ⊢; tauto))]

theorem stripNonNumeric_groupThousands (ds : List Char)
    (h : ∀ c ∈ ds, isDigitC c = true) :
    stripNonNumeric (groupThousands ds) = ds := by
  unfold groupThousands stripNonNumeric
  rw [List.filter_reverse]
  rw [show List.filter (fun c => decide (isDigitC c = true ∨ c = '.' ∨ c = '-'))
      (groupRev ds.reverse) = stripNonNumeric (groupRev ds.reverse) from rfl]
  rw [groupRev_strip ds.reverse (fun x hx => h x (List.mem_reverse.mp hx))]
  rw [List.reverse_reverse]

theorem natToCharsAux_len_one (f n : Nat) (hf : 0 < f) (h10 : n < 10) :
    (natToCharsAux f n).length = 1 := by
  cases f with
  | zero => omega
  | succ g =>
    unfold natToCharsAux
    rw [if_pos h10]
    rfl

theorem natToChars_length_le_two (n : Nat) (h : n < 100) :
    (natToChars n).length ≤ 2 := by
  unfold natToChars natToCharsAux
  by_cases h10 : n < 10
  · rw [if_pos h10]
    simp
  · rw [if_neg h10]
    rw [List.length_append]
    rw [natToCharsAux_len_one n (n / 10) (by omega) (by omega)]
    simp

theorem padZeros_length (w : Nat) (ds : List Char) (h : ds.length ≤ w) :
    (padZeros w ds).length = w := by
  unfold padZeros
  simp only [List.length_append, List.length_replicate]
  omega

theorem floor_add_half (k : Int) : ⌊(k : ℚ) + 1 / 2⌋ = k := by
  rw [Int.floor_eq_iff]
  constructor
  · norm_num
  · push_cast
    norm_num

namespace DataTransformer

theorem c2rt_currency (cfg : TransformConfig) (k : Nat) (hcur : cfg.currency = none) :
    applyReverseTransformation
      (applyTransformation (vnum ((k : ℚ) / 100)) "CURRENCY_FORMAT" cfg)
      "CURRENCY_FORMAT" cfg = vnum ((k : ℚ) / 100) := by
  show parseCurrency (formatCurrency (vnum ((k : ℚ) / 100))
      (strOr cfg.currency (chars "USD"))) = vnum ((k : ℚ) / 100)
  rw [hcur]
  rw [show strOr none (chars "USD") = chars "USD" from rfl]
  show parseCurrency (vstr (jsCurrencyFormat ((k : ℚ) / 100) (chars "USD")))
      = vnum ((k : ℚ) / 100)
  have hm : (⌊|((k : ℚ) / 100)| * 100 + 1 / 2⌋).toNat = k := by
    rw [abs_of_nonneg (by positivity)]
    rw [div_mul_cancel₀ _ (by norm_num : (100 : ℚ) ≠ 0)]
    rw [show ((k : Nat) : ℚ) = (((k : Nat) : Int) : ℚ) from (Int.cast_natCast _).symm]
    rw [floor_add_half]
    exact Int.toNat_natCast k
  have hfmt : jsCurrencyFormat ((k : ℚ) / 100) (chars "USD")
      = '$' :: (groupThousands (natToChars (k / 100)) ++ '.' ::
          padZeros 2 (natToChars (k % 100))) := by
    unfold jsCurrencyFormat
    rw [if_neg (not_lt.mpr (by positivity))]
    rw [hm]
    rw [show currencySymbol (chars "USD") = ['$'] from rfl]
    simp
  rw [hfmt]
  show (match jsParseFloat (stripNonNumeric (jsToChars (vstr ('$' ::
      (groupThousands (natToChars (k / 100)) ++ '.' ::
        padZeros 2 (natToChars (k % 100))))))) with
    | vnum q => vnum q
    | _ => vnum 0) = vnum ((k : ℚ) / 100)
  rw [show ∀ t, jsToChars (vstr t) = t from fun t => rfl]
  rw [show stripNonNumeric ('$' :: (groupThousands (natToChars (k / 100)) ++ '.' ::
      padZeros 2 (natToChars (k % 100))))
      = natToChars (k / 100) ++ '.' :: padZeros 2 (natToChars (k % 100)) from by
    unfold stripNonNumeric
    rw [List.filter_cons_of_neg (by decide)]
    rw [List.filter_append]
    rw [show List.filter (fun c => decide (isDigitC c = true ∨ c = '.' ∨ c = '-'))
        (groupThousands (natToChars (k / 100)))
        = stripNonNumeric (groupThousands (natToChars (k / 100))) from rfl]
    rw [stripNonNumeric_groupThousands _ (natToChars_all_digits _)]
    rw [List.filter_cons_of_pos (by decide)]
    rw [show List.filter (fun c => decide (isDigitC c = true ∨ c = '.' ∨ c = '-'))
        (padZeros 2 (natToChars (k % 100)))
        = stripNonNumeric (padZeros 2 (natToChars (k % 100))) from rfl]
    rw [stripNonNumeric_digits _ (padZeros_all_digits 2 _ (natToChars_all_digits _))]]
  rw [jsParseFloat_dec _ _ (natToChars_ne_nil _) (natToChars_all_digits _)
    (padZeros_all_digits 2 _ (natToChars_all_digits _))]
  rw [digitsVal_natToChars, digitsVal_padZeros, digitsVal_natToChars]
  rw [padZeros_length 2 _ (natToChars_length_le_two _ (by omega))]
  show vnum ((((k / 100 : Nat) : ℚ)) + (((k % 100 : Nat) : ℚ)) / 10 ^ (2 : Nat))
      = vnum ((k : ℚ) / 100)
  have hsplit : (k : ℚ) = 100 * ((k / 100 : Nat) : ℚ) + ((k % 100 : Nat) : ℚ) := by
    exact_mod_cast (Nat.div_add_mod k 100).symm
  rw [show ((k : ℚ) / 100) = (100 * ((k / 100 : Nat) : ℚ) + ((k % 100 : Nat) : ℚ)) / 100 from
    by rw [← hsplit]]
  norm_num
  ring

end DataTransformer

/-- A JSON-plain character: printable (code ≥ 32) and in need of no escape.
`jsonEscapeChar` maps such a character to itself. -/
def jsonPlainChar (c : Char) : Bool := 32 ≤ c.toNat ∧ c ≠ '"' ∧ c ≠ '\\'

theorem jsonEscapeChar_plain (c : Char) (h : jsonPlainChar c = true) :
    jsonEscapeChar c = [c] := by
  simp only [jsonPlainChar, decide_eq_true_eq] at h
  obtain ⟨h1, h2, h3⟩ := h
  unfold jsonEscapeChar
  rw [if_neg h2, if_neg h3,
    if_neg (fun he => by subst he; exact absurd h1 (by decide)),
    if_neg (fun he => by subst he; exact absurd h1 (by decide)),
    if_neg (fun he => by subst he; exact absurd h1 (by decide)),
    if_neg (by omega)]

theorem jsonEscape_plain (s : List Char) (h : ∀ c ∈ s, jsonPlainChar c = true) :
    jsonEscape s = s := by
  induction s with
  | nil => rfl
  | cons c t ih =>
    unfold jsonEscape
    rw [List.map_cons, List.flatten_cons, jsonEscapeChar_plain c (h c (by simp))]
    rw [show (t.map jsonEscapeChar).flatten = jsonEscape t from rfl]
    rw [ih (fun x hx => h x (by simp [hx]))]
    rfl

theorem jsonParseStrBody_plain (s rest : List Char)
    (h : ∀ c ∈ s, jsonPlainChar c = true) :
    jsonParseStrBody (s ++ '"' :: rest) = some (s, rest) := by
  induction s with
  | nil => rfl
  | cons c t ih =>
    have hc := h c (by simp)
    simp only [jsonPlainChar, decide_eq_true_eq] at hc
    rw [List.cons_append]
    unfold jsonParseStrBody
    split
    · next heq => exact absurd heq (by simp)
    · next heq =>
        rw [List.cons.injEq] at heq
        exact absurd heq.1 hc.2.1
    · next c2 r2 heq =>
        rw [List.cons.injEq] at heq
        exact absurd heq.1 hc.2.2
    · next a c2 r2 hq1 hq2 heq =>
        injection heq with h1 h2
        subst h1
        subst h2
        rw [if_neg (by omega)]
        rw [ih (fun x hx => h x (by simp [hx]))]
        rfl

theorem digit_not_jsonWs (c : Char) (h : isDigitC c = true) : isJsonWs c = false := by
  by_contra hw
  rw [Bool.not_eq_false] at hw
  simp only [isJsonWs, decide_eq_true_eq] at hw
  rcases hw with h1|h1|h1|h1 <;> (subst h1; exact absurd h (by decide))

theorem jsonParseNum_digits (ds : List Char) (hne : ds ≠ [])
    (hall : ∀ c ∈ ds, isDigitC c = true) :
    jsonParseNum ds = some ((digitsVal ds : ℚ), []) := by
  cases ds with
  | nil => exact absurd rfl hne
  | cons c rest =>
    have hc := hall c (by simp)
    simp only [jsonParseNum]
    rw [readSign_digit c rest hc]
    rw [takeWhile_all _ _ hall]
    rw [if_neg (by simp)]
    rw [List.drop_length]
    show some ((1 : ℚ) * (digitsVal (c :: rest) : ℚ), ([] : List Char)) = _
    rw [one_mul]

theorem jsonParseNum_neg_digits (ds : List Char) (hne : ds ≠ [])
    (hall : ∀ c ∈ ds, isDigitC c = true) :
    jsonParseNum ('-' :: ds) = some (-(digitsVal ds : ℚ), []) := by
  simp only [jsonParseNum]
  rw [show readSign ('-' :: ds) = (true, ds) from rfl]
  rw [takeWhile_all _ _ hall]
  rw [if_neg (by simp [hne])]
  rw [List.drop_length]
  show some ((-1 : ℚ) * (digitsVal ds : ℚ), ([] : List Char)) = _
  norm_num

theorem jsonParseF_digits (g : Nat) (ds : List Char) (hne : ds ≠ [])
    (hall : ∀ c ∈ ds, isDigitC c = true) :
    jsonParseF (g + 1) false ds [] = some (vnum (digitsVal ds), []) := by
  cases ds with
  | nil => exact absurd rfl hne
  | cons c rest =>
    have hc := hall c (by simp)
    simp only [jsonParseF]
    rw [List.dropWhile_cons_of_neg (by simp [digit_not_jsonWs c hc])]
    split
    · next r heq =>
        rw [List.cons.injEq] at heq
        exact absurd heq.1 (digit_ne c '"' hc (by decide))
    · next r heq =>
        rw [List.cons.injEq] at heq
        exact absurd heq.1 (digit_ne c '[' hc (by decide))
    · next r heq =>
        rw [List.cons.injEq] at heq
        exact absurd heq.1 (digit_ne c 't' hc (by decide))
    · next r heq =>
        rw [List.cons.injEq] at heq
        exact absurd heq.1 (digit_ne c 'f' hc (by decide))
    · next r heq =>
        rw [List.cons.injEq] at heq
        exact absurd heq.1 (digit_ne c 'n' hc (by decide))
    · rw [jsonParseNum_digits (c :: rest) (by simp) hall]
      rfl

theorem jsonParseF_neg_digits (g : Nat) (ds : List Char) (hne : ds ≠ [])
    (hall : ∀ c ∈ ds, isDigitC c = true) :
    jsonParseF (g + 1) false ('-' :: ds) [] = some (vnum (-(digitsVal ds : ℚ)), []) := by
  simp only [jsonParseF]
  rw [List.dropWhile_cons_of_neg (by decide)]
  rw [jsonParseNum_neg_digits ds hne hall]
  rfl

theorem jsonParseTop_int (k : Int) : jsonParseTop (intToChars k) = some (vnum ((k : ℚ))) := by
  obtain ⟨g, hg⟩ : ∃ g, 2 * (intToChars k).length + 2 = g + 1 :=
    ⟨2 * (intToChars k).length + 1, rfl⟩
  unfold jsonParseTop
  rw [hg]
  by_cases hk : k < 0
  · rw [show intToChars k = '-' :: natToChars k.natAbs from by
      unfold intToChars; rw [if_pos hk]]
    rw [jsonParseF_neg_digits g _ (natToChars_ne_nil _) (natToChars_all_digits _)]
    rw [digitsVal_natToChars]
    show some (vnum (-((k.natAbs : Nat) : ℚ))) = some (vnum ((k : ℚ)))
    rw [show ((k.natAbs : Nat) : ℚ) = (((k.natAbs : Nat) : Int) : ℚ) from (Int.cast_natCast _).symm]
    rw [show (k.natAbs : Int) = -k from by omega]
    push_cast
    ring_nf
  · rw [show intToChars k = natToChars k.natAbs from by
      unfold intToChars; rw [if_neg hk]]
    rw [jsonParseF_digits g _ (natToChars_ne_nil _) (natToChars_all_digits _)]
    rw [digitsVal_natToChars]
    show some (vnum ((k.natAbs : Nat) : ℚ)) = some (vnum ((k : ℚ)))
    rw [show ((k.natAbs : Nat) : ℚ) = (((k.natAbs : Nat) : Int) : ℚ) from (Int.cast_natCast _).symm]
    rw [Int.natAbs_of_nonneg (by omega)]

theorem jsonParseTop_str (s : List Char) (h : ∀ c ∈ s, jsonPlainChar c = true) :
    jsonParseTop ('"' :: (s ++ ['"'])) = some (vstr s) := by
  obtain ⟨g, hg⟩ : ∃ g, 2 * ('"' :: (s ++ ['"'])).length + 2 = g + 1 :=
    ⟨2 * ('"' :: (s ++ ['"'])).length + 1, rfl⟩
  unfold jsonParseTop
  rw [hg]
  simp only [jsonParseF]
  rw [List.dropWhile_cons_of_neg (by decide)]
  show (match Option.map (fun pr => (vstr pr.1, pr.2)) (jsonParseStrBody (s ++ ['"'])) with
    | some (v, rem) => if List.dropWhile isJsonWs rem = [] then some v else none
    | none => none) = some (vstr s)
  rw [jsonParseStrBody_plain s [] h]
  rfl

namespace DataTransformer

/-- A JSON-safe scalar value: `null`, a boolean, a safe-integer-valued
number (within `Number.MAX_SAFE_INTEGER`, where `String(n)` prints plain
decimal digits), or a string of JSON-plain characters.  `JSON.stringify`
then `JSON.parse` reproduces such a value exactly. -/
def WfJson (v : JsVal) : Prop :=
  match v with
  | vnull => True
  | vbool _ => True
  | vnum q => ∃ k : Int, k.natAbs ≤ 9007199254740991 ∧ q = (k : ℚ)
  | vstr s => ∀ c ∈ s, jsonPlainChar c = true
  | _ => False

theorem c2rt_json (v : JsVal) (cfg : TransformConfig) (h : WfJson v) :
    applyReverseTransformation (applyTransformation v "JSON_TO_STRING" cfg)
      "JSON_TO_STRING" cfg = v := by
  cases v with
  | vnull => rfl
  | vbool b => cases b <;> rfl
  | vnan => exact h.elim
  | vundef => exact h.elim
  | varr xs => exact h.elim
  | vnum q =>
    obtain ⟨k, hk, rfl⟩ := h
    show (match jsonParseTop (jsToChars
        (match jsonStringify (vnum ((k : ℚ))) with
          | some s => vstr s
          | none => vundef)) with
      | some v2 => v2
      | none => (match jsonStringify (vnum ((k : ℚ))) with
          | some s => vstr s
          | none => vundef)) = vnum ((k : ℚ))
    rw [show jsonStringify (vnum ((k : ℚ))) = some (ratToChars ((k : ℚ))) from rfl]
    rw [ratToChars_int]
    show (match jsonParseTop (intToChars k) with
      | some v2 => v2
      | none => vstr (intToChars k)) = vnum ((k : ℚ))
    rw [jsonParseTop_int]
  | vstr s =>
    show (match jsonParseTop (jsToChars
        (match jsonStringify (vstr s) with
          | some s2 => vstr s2
          | none => vundef)) with
      | some v2 => v2
      | none => (match jsonStringify (vstr s) with
          | some s2 => vstr s2
          | none => vundef)) = vstr s
    rw [show jsonStringify (vstr s) = some ('"' :: (jsonEscape s ++ ['"'])) from rfl]
    rw [jsonEscape_plain s h]
    show (match jsonParseTop ('"' :: (s ++ ['"'])) with
      | some v2 => v2
      | none => vstr ('"' :: (s ++ ['"']))) = vstr s
    rw [jsonParseTop_str s h]

end DataTransformer

namespace DataTransformer

/-- SPLIT is in the claim's reversible set (it is not among the exempted
CONCATENATE / case / trim operations), but its reverse (`joinField`) cannot
recover the dropped parts: forward SPLIT keeps only one part of the split. -/
theorem c2_counterexample :
    applyReverseTransformation
        (applyTransformation (vstr (chars "a,b")) "SPLIT" emptyCfg)
        "SPLIT" emptyCfg = vstr (chars "a")
    ∧ chars "a" ≠ chars "a,b" :=
  ⟨rfl, by decide⟩

/-- Well-formed inputs per reversible transform type: the domain on which
the forward/reverse pair is proven to round-trip.  The types carrying a
genuine reverse are `DATE_FORMAT`, `NUMBER_FORMAT`, `CURRENCY_FORMAT`,
`BOOLEAN_TO_TEXT`, `ENUM_TO_TEXT`, `PHONE_FORMAT`, `EMAIL_NORMALIZE`,
`JSON_TO_STRING`, `ARRAY_TO_STRING` and `CUSTOM_FUNCTION`; every other type
(including `SPLIT`, refuted separately) gets `False`. -/
def reversibleWf (t : String) (v : JsVal) (cfg : TransformConfig) : Prop :=
  if t = "DATE_FORMAT" then
    cfg.format = none ∧ ∃ y m d : Int, validCivil y m d ∧ 100 ≤ y ∧ y ≤ 9999 ∧
      makeDay y (m - 1) d ≠ 0 ∧ v = vnum (((makeDay y (m - 1) d * msPerDay : Int) : ℚ))
  else if t = "NUMBER_FORMAT" then
    cfg.decimals = none ∧ cfg.thousands = false ∧
      ∃ k : Int, k.natAbs ≤ 9007199254740991 ∧ v = vnum ((k : ℚ))
  else if t = "CURRENCY_FORMAT" then
    cfg.currency = none ∧ ∃ k : Nat, k ≤ 9007199254740991 ∧ v = vnum ((k : ℚ) / 100)
  else if t = "BOOLEAN_TO_TEXT" then
    (∃ b, v = vbool b) ∧
      ((cfg.trueValue = none ∧ cfg.falseValue = none) ∨
       (∃ tv fv, cfg.trueValue = some tv ∧ cfg.falseValue = some fv ∧
         tv ≠ [] ∧ fv ≠ [] ∧ fv ≠ tv))
  else if t = "ENUM_TO_TEXT" then
    ∃ m rm s tv, cfg.mapping = some m ∧ cfg.reverseMapping = some rm ∧ v = vstr s ∧
      lookupStr m s = some tv ∧ tv ≠ [] ∧ lookupStr rm tv = some s ∧ s ≠ []
  else if t = "PHONE_FORMAT" then ∃ s, v = vstr s ∧ stripNonDigits s = s
  else if t = "EMAIL_NORMALIZE" then ∃ s, v = vstr s ∧ jsTrim (jsToLower s) = s
  else if t = "JSON_TO_STRING" then WfJson v
  else if t = "ARRAY_TO_STRING" then
    cfg.separator = none ∧ ∃ xs, v = varr (xs.map vstr) ∧ xs ≠ [] ∧
      ∀ p ∈ xs, ∀ c ∈ p, c ≠ ','
  else if t = "CUSTOM_FUNCTION" then
    (∃ g g2, cfg.customFn = some g ∧ cfg.customRevFn = some g2 ∧ g2 (g v) = v) ∨
      (cfg.customFn = none ∧ cfg.customRevFn = none)
  else False

/-- C2 (amended): for every transform type with a genuine reverse —
`DATE_FORMAT`, `NUMBER_FORMAT`, `CURRENCY_FORMAT`, `BOOLEAN_TO_TEXT`,
`ENUM_TO_TEXT`, `PHONE_FORMAT`, `EMAIL_NORMALIZE`, `JSON_TO_STRING`,
`ARRAY_TO_STRING`, `CUSTOM_FUNCTION` — and every well-formed value and
configuration (`reversibleWf`), the reverse transformation undoes the
forward one.  `SPLIT`, which the original claim also counted as reversible,
is refuted by `c2_counterexample`; the case/trim operations and
`CONCATENATE` are exempted by the claim itself. -/
theorem c2_reverse_roundtrip (t : String) (v : JsVal) (cfg : TransformConfig)
    (hwf : reversibleWf t v cfg) :
    applyReverseTransformation (applyTransformation v t cfg) t cfg = v := by
  unfold reversibleWf at hwf
  split_ifs at hwf with h1 h2 h3 h4 h5 h6 h7 h8 h9 h10
  · subst h1
    obtain ⟨hf, y, m, d, hv, hy1, hy2, hnz, rfl⟩ := hwf
    exact c2rt_date cfg y m d hf hv hy1 hy2 hnz
  · subst h2
    obtain ⟨hd, ht, k, hk, rfl⟩ := hwf
    exact c2rt_number cfg k hd ht
  · subst h3
    obtain ⟨hc, k, hk, rfl⟩ := hwf
    exact c2rt_currency cfg k hc
  · subst h4
    obtain ⟨⟨b, rfl⟩, hc⟩ := hwf
    exact c2rt_bool b cfg hc
  · subst h5
    obtain ⟨m, rm, s0, tv, hm, hrm, rfl, hl, htv, hr, hs⟩ := hwf
    exact c2rt_enum cfg m rm s0 tv hm hrm hl htv hr hs
  · subst h6
    obtain ⟨s0, rfl, hs⟩ := hwf
    exact c2rt_phone s0 cfg hs
  · subst h7
    obtain ⟨s0, rfl, hs⟩ := hwf
    exact c2rt_email s0 cfg hs
  · subst h8
    exact c2rt_json v cfg hwf
  · subst h9
    obtain ⟨hsep, xs, rfl, hne, hc⟩ := hwf
    exact c2rt_array xs cfg hsep hne hc
  · subst h10
    exact c2rt_custom v cfg hwf

theorem c2_reverse_roundtrip_witness :
    applyReverseTransformation
        (applyTransformation (vstr (chars "5551234567")) "PHONE_FORMAT" emptyCfg)
        "PHONE_FORMAT" emptyCfg = vstr (chars "5551234567") :=
  c2_reverse_roundtrip "PHONE_FORMAT" (vstr (chars "5551234567")) emptyCfg
    ⟨chars "5551234567", rfl, by decide⟩

end DataTransformer
